import Mathlib

/-!
# Verification of the hidden-tracks-generator seed-selection pipeline

A shallow embedding, in Lean 4, of the core of the genre seed-selection
scripts (`killmegod.py`, `v2.py`, and the filename helper shared with
`extract_genre_seeds.py`).  Strings are embedded as `List Char`; Python
floats are embedded as rationals (`ℚ`); Python dictionaries become
association lists; Python's truthiness conventions (`or` fallbacks, empty
strings/lists being falsy) are modelled explicitly.  Regular-expression
matching is embedded by hand for the fixed patterns the scripts use
(word-boundary literal search and the feature-credit stripping pattern),
following CPython's leftmost-match, backtracking semantics for those
patterns.  Word characters are modelled as ASCII `[a-zA-Z0-9_]`.
-/

namespace HTG

/-- Strings are modelled as lists of characters. -/
abbrev Str := List Char

/-- Python `str.lower()` restricted to ASCII letters (all strings handled by
the scripts' matching logic are ASCII; characters without an ASCII uppercase
form, such as `é`, are fixed points of `lower`). -/
def pyLowerChar (c : Char) : Char :=
  if 'A' ≤ c ∧ c ≤ 'Z' then Char.ofNat (c.toNat + 32) else c

/-- `str.lower()` on a whole string. -/
def pyLower (s : Str) : Str := s.map pyLowerChar

/-- The whitespace characters recognised by Python's `str.strip()` and the
regex class `\s` (ASCII fragment). -/
def isPySpace (c : Char) : Bool :=
  c = ' ' || c = '\t' || c = '\n' || c = '\r' || c = Char.ofNat 11 || c = Char.ofNat 12

/-- Python `str.strip()` (no argument): drop leading and trailing whitespace. -/
def pyStrip (s : Str) : Str :=
  ((s.dropWhile isPySpace).reverse.dropWhile isPySpace).reverse

/-- Python `str.strip('-')`. -/
def pyStripHyphen (s : Str) : Str :=
  ((s.dropWhile (· = '-')).reverse.dropWhile (· = '-')).reverse

/-- Python `needle in hay` on strings: substring containment. -/
def isSub (needle hay : Str) : Bool :=
  (List.range (hay.length + 1)).any (fun i => needle.isPrefixOf (hay.drop i))

/-- A regex word character: ASCII `[a-zA-Z0-9_]` (see the header comment). -/
def isWordChar (c : Char) : Bool :=
  ('a' ≤ c && c ≤ 'z') || ('A' ≤ c && c ≤ 'Z') || ('0' ≤ c && c ≤ '9') || c = '_'

/-- Whether position `i` of `s` holds a word character (out of range: no). -/
def wordAt (s : Str) (i : Nat) : Bool :=
  match s.drop i with
  | [] => false
  | c :: _ => isWordChar c

/-- The regex `\b` condition between positions `i - 1` and `i` of `s`:
exactly one of the two neighbouring characters is a word character
(out-of-range counts as a non-word character). -/
def boundaryAt (s : Str) (i : Nat) : Bool :=
  let prev := if i = 0 then false else wordAt s (i - 1)
  prev ≠ wordAt s i

/-- `re.search(rf"\b{re.escape(pat)}\b", s)` for a literal `pat`: some
occurrence of `pat` in `s` flanked by word boundaries. -/
def boundarySearch (pat s : Str) : Bool :=
  (List.range (s.length + 1)).any
    (fun i => pat.isPrefixOf (s.drop i) && boundaryAt s i && boundaryAt s (i + pat.length))

/-- Association-list lookup, modelling Python `dict.get`. -/
def alookup {β : Type} : List (Str × β) → Str → Option β
  | [], _ => none
  | (k, v) :: r, k' => if k' = k then some v else alookup r k'

/-- Keep the first occurrence of each element, skipping anything in `seen`;
models iteration over a set built from a list (only the underlying set of
the result is semantically relevant to the claims below). -/
def dedupFirst : List Str → List Str → List Str
  | [], _ => []
  | a :: r, seen => if a ∈ seen then dedupFirst r seen else a :: dedupFirst r (a :: seen)

/-- Python `a or b` for optional strings: `a` unless it is falsy
(`None` or the empty string). -/
def pyOrS : Option Str → Option Str → Option Str
  | some s, b => if s = [] then b else some s
  | none, b => b

/-- Truthiness of an optional string (`if not tid: ...`). -/
def truthyS : Option Str → Bool
  | none => false
  | some s => s ≠ []

/-! ## Numeric helpers (common to `killmegod.py` and `v2.py`) -/

/-- `median_sorted` from `killmegod.py` (lines 123–130): middle element for
odd length, mean of the two middle elements for even length.  The empty
case (a `ValueError` in Python) is mapped to `0`; all callers guard it. -/
def median_sorted (vals : List ℚ) : ℚ :=
  let n := vals.length
  let mid := n / 2
  if n % 2 = 1 then vals.getD mid 0
  else (vals.getD (mid - 1) 0 + vals.getD mid 0) / 2

/-- `sorted(vals)` (ascending). -/
def pySorted (vals : List ℚ) : List ℚ :=
  vals.insertionSort (· ≤ ·)

/-- `median` from `killmegod.py`. -/
def median (vals : List ℚ) : ℚ := median_sorted (pySorted vals)

/-- `median_sorted` from `v2.py` (lines 60–67): note that for even length it
returns `float(vals[mid - 1])`, the lower middle element, not the mean. -/
def v2_median_sorted (vals : List ℚ) : ℚ :=
  let n := vals.length
  let mid := n / 2
  if n % 2 = 1 then vals.getD mid 0
  else vals.getD (mid - 1) 0

/-- `median` from `v2.py`. -/
def v2_median (vals : List ℚ) : ℚ := v2_median_sorted (pySorted vals)

/-- `math.floor` on a rational (kernel-computable floor). -/
def ratFloor (q : ℚ) : ℤ := Int.fdiv q.num (q.den : ℤ)

/-- `linear_quantile` from `killmegod.py` lines 135–148 (identical in
`v2.py` lines 72–85): linear interpolation between order statistics at
index `(n - 1) * q`. -/
def linear_quantile (vals : List ℚ) (q : ℚ) : Option ℚ :=
  let xs := pySorted vals
  let n := xs.length
  if n = 0 then none
  else if n = 1 then some (xs.getD 0 0)
  else
    let h : ℚ := (n - 1 : ℚ) * q
    let i : ℤ := ratFloor h
    let frac : ℚ := h - i
    if i + 1 < n then some (xs.getD i.toNat 0 * (1 - frac) + xs.getD (i.toNat + 1) 0 * frac)
    else some (xs.getD i.toNat 0)

/-- Round half to even on rationals. -/
def rhe (x : ℚ) : ℤ :=
  let f := ratFloor x
  let r := x - f
  if r < 1/2 then f
  else if r > 1/2 then f + 1
  else if f % 2 = 0 then f else f + 1

/-- `sround(x, 2)` = Python `round(float(x), 2)`: round to two decimal
places, half to even.  (Python rounds the nearest binary double; no value
appearing in this development sits on a binary tie.) -/
def sround (x : ℚ) : ℚ := (rhe (x * 100) : ℚ) / 100

/-- `clamp` from `killmegod.py`. -/
def clamp (x lo hi : ℚ) : ℚ := if x < lo then lo else if x > hi then hi else x

/-- Configured tempo range, `CONFIG['min_bpm']` / `CONFIG['max_bpm']`. -/
def min_bpm : ℚ := 70
def max_bpm : ℚ := 200

/-- `tempo_to_norm` from `killmegod.py`. -/
def tempo_to_norm (bpm : ℚ) : ℚ := clamp ((bpm - min_bpm) / (max_bpm - min_bpm)) 0 1

/-- `norm_tags`: lowercase and strip every non-empty tag. -/
def norm_tags (tags : List Str) : List Str :=
  (tags.filter (fun g => g ≠ [])).map (fun g => pyStrip (pyLower g))

/-! ## The feature-credit stripping regex (`strip_features`, `killmegod.py`
lines 71–77) and the strict-skip token test (line 84).

The pattern is `\s*\(?(?:feat\.?|ft\.?|featuring|with)\s+[^)]+?\)?` with
`re.IGNORECASE`.  It is embedded by hand with CPython's backtracking
semantics: `\s*` and `\(?` are deterministic here (the markers start with a
letter), the alternatives are tried in pattern order with the optional dot
preferred, `\s+` is greedy with backtracking, and the lazy `[^)]+?`
followed by the optional `\)?` consumes exactly one character plus a
closing parenthesis when one immediately follows. -/

/-- Length of the longest prefix of `s` whose characters satisfy `p`. -/
def countWhile (p : Char → Bool) : Str → Nat
  | [] => 0
  | c :: r => if p c then countWhile p r + 1 else 0

/-- Match `\s+[^)]+?\)?` at the start of `rest` (already known to begin
with `w`-many whitespace characters at most); tries the greedy widths
`w, w-1, …, 1` and returns the number of characters consumed. -/
def tailTry (rest : Str) : Nat → Option Nat
  | 0 => none
  | w + 1 =>
    match rest.drop (w + 1) with
    | [] => tailTry rest w
    | c :: r2 =>
      if c = ')' then tailTry rest w
      else some ((w + 1) + 1 + (match r2 with | ')' :: _ => 1 | _ => 0))

/-- Match `\s+[^)]+?\)?` at the start of `rest`. -/
def tailMatch (rest : Str) : Option Nat :=
  tailTry rest (countWhile isPySpace rest)

/-- Try one marker alternative followed by the tail pattern. -/
def altTry (low marker : Str) : Option Nat :=
  if marker.isPrefixOf low then (tailMatch (low.drop marker.length)).map (· + marker.length)
  else none

/-- The alternation `(?:feat\.?|ft\.?|featuring|with)\s+[^)]+?\)?`, tried in
pattern order with the optional dot taken greedily. -/
def markerTail (low : Str) : Option Nat :=
  (altTry low "feat.".toList).orElse fun _ =>
  (altTry low "feat".toList).orElse fun _ =>
  (altTry low "ft.".toList).orElse fun _ =>
  (altTry low "ft".toList).orElse fun _ =>
  (altTry low "featuring".toList).orElse fun _ =>
  altTry low "with".toList

/-- Match the whole credit pattern at the start of `low` (a lowered
suffix of the input); returns the number of characters consumed. -/
def creditLen (low : Str) : Option Nat :=
  let w0 := countWhile isPySpace low
  let rest1 := low.drop w0
  match rest1 with
  | '(' :: r => (markerTail r).map (· + w0 + 1)
  | _ => (markerTail rest1).map (· + w0)

/-- `re.sub(pattern, '', text)`: leftmost non-overlapping matches removed.
`low` is the lowered copy of `orig` (same length); `fuel` only bounds the
recursion and is always sufficient at `orig.length + 1`. -/
def subCredits : Nat → Str → Str → Str
  | 0, _, orig => orig
  | _ + 1, _, [] => []
  | fuel + 1, low, oc :: orest =>
    match creditLen low with
    | some (L + 1) => subCredits fuel (low.drop (L + 1)) ((oc :: orest).drop (L + 1))
    | _ => oc :: subCredits fuel low.tail orest

/-- `strip_features` from `killmegod.py` lines 71–77. -/
def strip_features (text : Str) : Str :=
  pyStrip (subCredits (text.length + 1) (pyLower text) text)

/-- The alternatives of the strict-skip pattern
`\b(feat\.?|ft\.?|featuring|with)\b`. -/
def featAlternatives : List Str :=
  ["feat.".toList, "feat".toList, "ft.".toList, "ft".toList, "featuring".toList, "with".toList]

/-- `re.search(r'\b(feat\.?|ft\.?|featuring|with)\b', name, re.IGNORECASE)`
(`killmegod.py` line 84): some alternative occurs at some position flanked
by word boundaries. -/
def hasFeatToken (name : Str) : Bool :=
  let s := pyLower name
  (List.range (s.length + 1)).any fun i =>
    featAlternatives.any fun tok =>
      tok.isPrefixOf (s.drop i) && boundaryAt s i && boundaryAt s (i + tok.length)

/-! ## `generate_filename` (`killmegod.py` lines 99–111) -/

/-- One slug: lowercase, spaces to hyphens, drop characters outside
`[a-z0-9-]`, collapse repeated hyphens, trim hyphens. -/
def slugCollapse : Str → Str
  | [] => []
  | '-' :: '-' :: r => slugCollapse ('-' :: r)
  | c :: r => c :: slugCollapse r

/-- `(x or 'unknown').lower().replace(' ', '-')` + the two `re.sub`s +
`.strip('-')`. -/
def slug (x : Str) : Str :=
  let x := if x = [] then "unknown".toList else x
  let x := (pyLower x).map (fun c => if c = ' ' then '-' else c)
  let x := x.filter (fun c => ('a' ≤ c && c ≤ 'z') || ('0' ≤ c && c ≤ '9') || c = '-')
  pyStripHyphen (slugCollapse x)

/-- `generate_filename` from `killmegod.py`: strip feature credits from
both parts, slug each, join with a hyphen and append `.json`. -/
def generate_filename (artist track_name : Str) : Str :=
  slug (strip_features artist) ++ ('-' :: slug (strip_features track_name)) ++ ".json".toList

/-! ## Track records and the cleanup pass (`killmegod.py` lines 79–93) -/

/-- A track record.  Optional identifier fields model the duck-typed
`uri`/`id` access; `artist_genres` and `genres` model the tag-field
fallback; an absent list field and an empty one behave identically in the
scripts (both are falsy and iterate as empty), so both are `[]` here. -/
structure Track where
  id : Option Str := none
  uri : Option Str := none
  name : Str := []
  artists : List Str := []
  artist_genres : List Str := []
  genres : List Str := []
  release_year : Option ℤ := none
  popularity : Option ℚ := none
  danceability : Option ℚ := none
  energy : Option ℚ := none
  speechiness : Option ℚ := none
  acousticness : Option ℚ := none
  valence : Option ℚ := none
  instrumentalness : Option ℚ := none
  tempo : Option ℚ := none
  deriving DecidableEq

/-- `track.get("artist_genres") or track.get("genres") or []`. -/
def tagsOf (t : Track) : List Str :=
  if t.artist_genres = [] then t.genres else t.artist_genres

/-- `(track.get("artists") or [""])[0]`. -/
def primaryArtist (t : Track) : Str :=
  match t.artists with
  | [] => []
  | a :: _ => a

/-- The cleanup applied to a surviving track: feature credits stripped
from the title and from every artist string, in place. -/
def cleanupTrack (t : Track) : Track :=
  { t with name := strip_features t.name, artists := t.artists.map strip_features }

/-- The `cleaned_tracks` loop (`killmegod.py` lines 80–91): drop any track
whose title contains a feature marker token, clean the rest. -/
def cleaned_tracks : List Track → List Track
  | [] => []
  | t :: r =>
    if hasFeatToken t.name then cleaned_tracks r
    else cleanupTrack t :: cleaned_tracks r

/-! ## `genre_match` (`killmegod.py` lines 1330–1343) -/

/-- `EXCLUSIONS` from `killmegod.py` lines 493–500. -/
def EXCLUSIONS : List (Str × List Str) :=
  [ ("punk".toList, ["pop punk".toList, "dance".toList, "edm".toList, "electro".toList, "big room".toList]),
    ("metal".toList, ["funk metal".toList]),
    ("electro".toList, ["electropop".toList, "pop".toList]),
    ("rock".toList, ["pop rock".toList, "soft rock".toList]),
    ("folk".toList, ["indie folk".toList]),
    ("funk".toList, ["funk carioca".toList, "baile funk".toList, "brazilian funk".toList]) ]

/-- The matching core of `genre_match`: exact tag equality, else
word-boundary search of the genre name inside the tag. -/
def genreMatchCore (search_genre : Str) (track_genres : List Str) : Bool :=
  let sg := pyStrip (pyLower search_genre)
  track_genres.any fun tg =>
    let t := pyStrip (pyLower tg)
    t = sg || boundarySearch sg t

/-- `genre_match`, parameterised by the exclusion table (the module-level
`EXCLUSIONS` dictionary): if the genre has an exclusion list and any tag
contains any exclusion substring, fail immediately; otherwise match. -/
def genre_match (excl : List (Str × List Str)) (search_genre : Str)
    (track_genres : List Str) : Bool :=
  if ((alookup excl search_genre).getD []).any
      (fun e => track_genres.any (fun g => isSub (pyLower e) (pyLower g))) then false
  else genreMatchCore search_genre track_genres

/-! ## Genre rules and `passes_rules` (`killmegod.py` lines 1345–1420) -/

/-- A `GENRE_RULES` record.  A missing list key and an explicit empty list
are indistinguishable to every consumer in `killmegod.py`, so list fields
are plain lists; the numeric bounds keep their optionality because the
gates test them with Python truthiness. -/
structure GenreRule where
  require_artist_genres_any : List Str := []
  deny_artist_genres_any : List Str := []
  deny_name_contains : List Str := []
  deny_artist_contains : List Str := []
  whitelist_artists : List Str := []
  boost_artist_contains : List Str := []
  allow_artist_genres_any : List Str := []
  min_year : Option ℤ := none
  max_year : Option ℤ := none
  popularity_min : Option ℚ := none
  popularity_max : Option ℚ := none
  deriving DecidableEq

/-- Python truthiness of an optional integer. -/
def truthyI : Option ℤ → Bool
  | none => false
  | some v => v ≠ 0

/-- Python truthiness of an optional rational. -/
def truthyQ : Option ℚ → Bool
  | none => false
  | some v => v ≠ 0

/-- `passes_rules` from `killmegod.py`, parameterised by the rule table.
Gate order as in the source: deny tags (word-boundary), require tags
(word-boundary), title denylist (substring), artist denylist (substring),
whitelist bypass (substring of the lowered primary artist), year window
(skipped for falsy years), popularity window (missing popularity is 0). -/
def passes_rules (tbl : List (Str × GenreRule)) (target_genre : Str) (t : Track) : Bool :=
  match alookup tbl (pyLower target_genre) with
  | none => true
  | some rules =>
    let a_gen := (tagsOf t).map pyLower
    let artist := pyLower (primaryArtist t)
    let name := pyLower t.name
    if rules.deny_artist_genres_any.any
        (fun d => a_gen.any (fun g => boundarySearch (pyLower d) g)) then false
    else if rules.require_artist_genres_any ≠ [] &&
        !(rules.require_artist_genres_any.any
          (fun r => a_gen.any (fun g => boundarySearch (pyLower r) g))) then false
    else if rules.deny_name_contains.any (fun d => isSub (pyLower d) name) then false
    else if rules.deny_artist_contains.any (fun d => isSub (pyLower d) artist) then false
    else if rules.whitelist_artists.any (fun w => isSub (pyLower w) artist) then true
    else
      let y : Option ℤ :=
        match t.release_year with
        | some v => if v = 0 then none else some v
        | none => none
      let yearOK :=
        match y with
        | none => true
        | some yv =>
          !(truthyI rules.min_year && yv < rules.min_year.getD 0) &&
          !(truthyI rules.max_year && yv > rules.max_year.getD 0)
      let pop := t.popularity.getD 0
      let popOK :=
        !(truthyQ rules.popularity_min && pop < rules.popularity_min.getD 0) &&
        !(truthyQ rules.popularity_max && pop > rules.popularity_max.getD 0)
      yearOK && popOK

/-- The `"shoegaze"` record of `GENRE_RULES` (`killmegod.py` lines
527–539). -/
def shoegazeRule : GenreRule :=
  { require_artist_genres_any :=
      ["shoegaze".toList, "nu gaze".toList, "dream pop".toList, "noise pop".toList,
       "space rock".toList, "slowcore".toList],
    deny_artist_genres_any :=
      ["adult standards".toList, "dance pop".toList, "electropop".toList, "synthpop".toList],
    whitelist_artists :=
      ["My Bloody Valentine".toList, "Slowdive".toList, "Ride".toList, "Lush".toList,
       "Chapterhouse".toList, "Pale Saints".toList, "Nothing".toList, "Whirr".toList,
       "Medicine".toList, "Catherine Wheel".toList, "Cocteau Twins".toList, "DIIV".toList],
    deny_name_contains := ["remix".toList, "live".toList, "edit".toList],
    min_year := some 1988, max_year := some 2024,
    popularity_min := some 15, popularity_max := some 80 }

/-! ## Scoring (`proto_score`, `killmegod.py` lines 1488–1533)

The jitter draw `random.random()` is passed in as an argument; the genre
loop threads a draw counter through a stream `Nat → ℚ` that models the
module-level PRNG seeded once at startup (`random.seed(CONFIG['random_seed'])`,
line 50). -/

/-- `pop_component`: plateau around the centre, linear falloff to zero. -/
def pop_component (pop center plateau width weight : ℚ) : ℚ :=
  let delta := |pop - center|
  let score := if delta ≤ plateau then 1
               else if delta ≥ width then 0
               else 1 - (delta - plateau) / (width - plateau)
  weight * score

/-- `proto_score` from `killmegod.py`, with the `CONFIG` scoring constants
inlined (`2.5`, `1.5`, `0.8`, `-0.3`, `0.05`, centre `69`, plateau `5`,
width `55`, weight `0.5`); `rand` is the `random.random()` draw. -/
def proto_score (tbl : List (Str × GenreRule)) (target_genre : Str) (t : Track)
    (rand : ℚ) : ℚ :=
  let tags := norm_tags (tagsOf t)
  let target := pyLower target_genre
  let artists := t.artists.map pyLower
  let exact : ℚ := if tags.any (· = target) then 5/2 else 0
  let rules := (alookup tbl target).getD {}
  let whitelist := rules.whitelist_artists.map pyLower
  let boost := rules.boost_artist_contains.map pyLower
  let whitelist_bonus : ℚ :=
    if artists.any (fun a => whitelist.any (fun w => isSub w a)) then 3/2 else 0
  let boost_bonus : ℚ :=
    if artists.any (fun a => boost.any (fun b => isSub b a)) then 4/5 else 0
  let pop := t.popularity.getD 0
  let pop_score := pop_component pop 69 5 55 (1/2)
  let bad_tokens : List Str :=
    ["dance pop".toList, "pop".toList, "electropop".toList, "soundtrack".toList]
  let contam : ℚ :=
    if bad_tokens.any (fun bt => tags.any (fun g => isSub bt g)) then -3/10 else 0
  let allow := rules.allow_artist_genres_any.map pyLower
  let deny := rules.deny_artist_genres_any.map pyLower
  let match_bonus : ℚ := min (6/5) ((2/5) * (allow.countP (fun g => g ∈ tags) : ℚ))
  let deny_penalty : ℚ := if deny.any (fun d => d ∈ tags) then -1/2 else 0
  let noise := rand * (1/20)
  exact + whitelist_bonus + boost_bonus + pop_score + contam + match_bonus +
    deny_penalty + noise

/-! ## Indexing and per-genre selection (`killmegod.py` lines 1538–1624) -/

/-- Append a track to the bucket of key `k`, preserving first-occurrence
key order (Python `defaultdict(list)` insertion order). -/
def addBucket : List (Str × List Track) → Str → Track → List (Str × List Track)
  | [], k, t => [(k, [t])]
  | (k', l) :: r, k, t =>
    if k = k' then (k', l ++ [t]) :: r else (k', l) :: addBucket r k t

/-- `if tid in TRACK_DENY_URIS` (a falsy id is never in the deny set). -/
def deniedUri (denyUris : List Str) (t : Track) : Bool :=
  match pyOrS t.uri t.id with
  | some s => decide (s ∈ denyUris)
  | none => false

/-- The `tracks_by_genre` index (`killmegod.py` lines 1539–1548): skip
denied URIs and tagless tracks, then bucket each track under each of its
normalised tags, in first-occurrence key order. -/
def tracksByGenre (denyUris : List Str) (tracks : List Track) : List (Str × List Track) :=
  tracks.foldl
    (fun (idx : List (Str × List Track)) t =>
      if deniedUri denyUris t then idx
      else
        let tgs := norm_tags (tagsOf t)
        if tgs = [] then idx
        else tgs.foldl (fun idx tg => addBucket idx tg t) idx)
    []

/-- The identifier a track contributes to the global seen-set
(`t.get("uri") or t.get("id")`). -/
def tidA (t : Track) : Option Str := pyOrS t.uri t.id

/-- The artist key used by the selection loop
(`((t.get("artists") or [""])[0] or "").strip().lower()`). -/
def artA (t : Track) : Str := pyLower (pyStrip (primaryArtist t))

/-- Candidate gathering for one genre: every bucket whose key
boundary-matches the lowered genre name, filtered through the truthy-id
check, `genre_match` and `passes_rules`, in index order. -/
def kmgCandidates (excl : List (Str × List Str)) (tbl : List (Str × GenreRule))
    (index : List (Str × List Track)) (genre : Str) : List Track :=
  let gl := pyLower genre
  (index.filter (fun kv => boundarySearch gl kv.1)).flatMap fun kv =>
    kv.2.filter fun t =>
      truthyS (tidA t) && genre_match excl genre (norm_tags (tagsOf t)) &&
        passes_rules tbl genre t

/-- `if not tid or not artist: continue` in the local de-duplication. -/
def kmgBad (t : Track) : Bool :=
  !truthyS (tidA t) || decide (pyStrip (primaryArtist t) = [])

/-- `if tid in seen_ids or artist_l in seen_artists: continue`. -/
def kmgSeen (sids sarts : List Str) (t : Track) : Bool :=
  decide ((tidA t).getD [] ∈ sids) || decide (artA t ∈ sarts)

/-- The per-genre local de-duplication (`killmegod.py` lines 1589–1602):
drop tracks with falsy id or empty stripped artist, then keep the first
occurrence of each id and of each lowered artist. -/
def kmgDedup : List Track → List Str → List Str → List Track
  | [], _, _ => []
  | t :: rest, sids, sarts =>
    if kmgBad t then kmgDedup rest sids sarts
    else if kmgSeen sids sarts t then kmgDedup rest sids sarts
    else t :: kmgDedup rest ((tidA t).getD [] :: sids) (artA t :: sarts)

/-- `CONFIG['seeds_per_genre']`. -/
def seeds_per_genre : Nat := 5

/-- `if tid in global_seen_ids or artist in global_seen_artists: continue`. -/
def kmgSeenG (gids : List (Option Str)) (garts : List Str) (t : Track) : Bool :=
  decide (tidA t ∈ gids) || decide (artA t ∈ garts)

/-- The final pick loop (`killmegod.py` lines 1611–1623): walk the sorted
candidates, skipping anything whose id or artist is already globally seen,
adding each accepted track's id and artist to the global sets; stop at
`seeds_per_genre`. -/
def kmgTopK (K : Nat) :
    List Track → List Track → List (Option Str) → List Str →
      List Track × List (Option Str) × List Str
  | [], acc, gids, garts => (acc.reverse, gids, garts)
  | t :: rest, acc, gids, garts =>
    if K ≤ acc.length then (acc.reverse, gids, garts)
    else if kmgSeenG gids garts t then kmgTopK K rest acc gids garts
    else kmgTopK K rest (t :: acc) (tidA t :: gids) (artA t :: garts)

/-- Eligibility of a track against the global seen-sets: its id and its
artist key are both unseen (the pick loop's skip condition, negated). -/
def eligK (gids : List (Option Str)) (garts : List Str) (t : Track) : Bool :=
  decide (tidA t ∉ gids) && decide (artA t ∉ garts)

/-- The mutable state threaded through the genre loop: the global seen
sets, the PRNG draw counter, and the accumulated results map. -/
structure KSt where
  gids : List (Option Str) := []
  garts : List Str := []
  ctr : Nat := 0
  results : List (Str × List Track) := []
  deriving DecidableEq

/-- The locally de-duplicated candidate pool of a genre. -/
def kmgUnique (excl : List (Str × List Str)) (tbl : List (Str × GenreRule))
    (index : List (Str × List Track)) (genre : Str) : List Track :=
  kmgDedup (kmgCandidates excl tbl index genre) [] []

/-- The unique pool scored (one PRNG draw per element, in list order,
starting at draw counter `ctr`) and sorted by descending score. -/
def kmgSorted (excl : List (Str × List Str)) (tbl : List (Str × GenreRule))
    (stream : Nat → ℚ) (index : List (Str × List Track)) (genre : Str) (ctr : Nat) :
    List Track :=
  (((kmgUnique excl tbl index genre).enum.map
      (fun p => (proto_score tbl genre p.2 (stream (ctr + p.1)), p.2))).insertionSort
    (fun a b => b.1 ≤ a.1)).map Prod.snd

/-- The pick-loop run of one genre. -/
def kmgPicked (excl : List (Str × List Str)) (tbl : List (Str × GenreRule))
    (stream : Nat → ℚ) (index : List (Str × List Track)) (st : KSt) (genre : Str) :
    List Track × List (Option Str) × List Str :=
  kmgTopK seeds_per_genre (kmgSorted excl tbl stream index genre st.ctr) [] st.gids st.garts

/-- One iteration of the `for idx, genre in enumerate(PLAYABLE_GENRES)`
loop: gather, locally de-duplicate, score (one PRNG draw per unique
candidate, in list order), sort descending, pick the top K against the
global sets. -/
def kmgProcessGenre (excl : List (Str × List Str)) (tbl : List (Str × GenreRule))
    (stream : Nat → ℚ) (index : List (Str × List Track)) (st : KSt) (genre : Str) : KSt :=
  if kmgCandidates excl tbl index genre = [] then
    { st with results := st.results ++ [(genre, [])] }
  else if kmgUnique excl tbl index genre = [] then
    { st with results := st.results ++ [(genre, [])] }
  else
    { gids := (kmgPicked excl tbl stream index st genre).2.1,
      garts := (kmgPicked excl tbl stream index st genre).2.2,
      ctr := st.ctr + (kmgUnique excl tbl index genre).length,
      results := st.results ++ [(genre, (kmgPicked excl tbl stream index st genre).1)] }

/-- The whole selection pass of `killmegod.py`: clean the dataset, build
the genre index, then fold the per-genre selection over the playable
genres in order, starting from empty global sets. -/
def kmgRun (excl : List (Str × List Str)) (tbl : List (Str × GenreRule))
    (denyUris : List Str) (stream : Nat → ℚ) (tracks : List Track)
    (genres : List Str) : KSt :=
  let cleaned := cleaned_tracks tracks
  let index := tracksByGenre denyUris cleaned
  genres.foldl (kmgProcessGenre excl tbl stream index) {}

/-- Modelled from the spec: the stream of `random.random()` draws of the
module-level PRNG after `random.seed(seed)` (`killmegod.py` line 50).  The
Mersenne-Twister generator itself is Python-standard-library code outside
this repository; the spec requires only that the stream is a fixed
deterministic function of the seed, modelled here by a linear congruential
generator mapped into `[0, 1)`. -/
def randStream (seed : Nat) : Nat → ℚ :=
  fun i =>
    ((Nat.iterate (fun s => (1103515245 * s + 12345) % 2 ^ 31) (i + 1) seed : Nat) : ℚ) / 2 ^ 31

/-- `CONFIG['random_seed']`. -/
def random_seed : Nat := 42

/-- The selection pass as run by the script: the PRNG is seeded exactly
once, so the whole pass is a function of dataset, configuration and seed. -/
def kmgRunSeeded (excl : List (Str × List Str)) (tbl : List (Str × GenreRule))
    (denyUris : List Str) (tracks : List Track) (genres : List Str) (seed : Nat) : KSt :=
  kmgRun excl tbl denyUris (randStream seed) tracks genres

/-! ## The `v2.py` variant: rule evaluation, sparse-pool relaxation, and
the selection loop with global and family uniqueness -/

namespace V2

/-- `passes_rules` from `v2.py` lines 970–1014: plain substring matching
for deny/require tags, a two-tag overlap floor for a few tricky genres, a
title denylist, and year/popularity windows tested with `is not None`
(year parsing keeps only non-negative integers, `str(y).isdigit()`). -/
def passes_rules (tbl : List (Str × GenreRule)) (target_genre : Str) (t : Track) : Bool :=
  match alookup tbl (pyLower target_genre) with
  | none => true
  | some rules =>
    let a_gen := (tagsOf t).map pyLower
    let req := rules.require_artist_genres_any.map pyLower
    let deny := rules.deny_artist_genres_any.map pyLower
    if deny ≠ [] && a_gen.any (fun g => deny.any (fun d => isSub d g)) then false
    else
      let overlap := (req.map (fun r => (a_gen.filter (fun g => isSub r g)).length)).sum
      let tricky : List Str :=
        ["east coast hip hop".toList, "afrobeat".toList, "bossa nova".toList,
         "grunge".toList, "shoegaze".toList]
      if req ≠ [] && (overlap < 1 || (decide (pyLower target_genre ∈ tricky) && overlap < 2))
        then false
      else
        let name := pyLower t.name
        let deny_tokens := rules.deny_name_contains.map pyLower
        if deny_tokens ≠ [] && deny_tokens.any (fun d => isSub d name) then false
        else
          let y : Option ℤ :=
            match t.release_year with
            | some v => if v < 0 then none else some v
            | none => none
          let yearOK :=
            match y with
            | none => true
            | some yv =>
              !(rules.min_year.isSome && yv < rules.min_year.getD 0) &&
              !(rules.max_year.isSome && yv > rules.max_year.getD 0)
          let pop := t.popularity.getD 0
          let popOK :=
            !(rules.popularity_min.isSome && pop < rules.popularity_min.getD 0) &&
            !(rules.popularity_max.isSome && pop > rules.popularity_max.getD 0)
          yearOK && popOK

/-- The `ADJACENT` table local to `relax_rules_if_sparse` (`v2.py` lines
1030–1038). -/
def ADJACENT : List (Str × List Str) :=
  [ ("thrash metal".toList, ["speed metal".toList, "classic metal".toList, "heavy metal".toList]),
    ("shoegaze".toList, ["dream pop".toList, "noise pop".toList, "space rock".toList,
                         "slowcore".toList, "indie rock".toList]),
    ("post-rock".toList, ["instrumental rock".toList, "math rock".toList, "ambient".toList,
                          "experimental rock".toList]),
    ("acid house".toList, ["chicago house".toList, "acid techno".toList, "rave".toList]),
    ("breakbeat".toList, ["big beat".toList, "nu skool breaks".toList, "progressive breaks".toList]),
    ("dub".toList, ["dub reggae".toList, "roots reggae".toList, "rocksteady".toList]),
    ("soca".toList, ["power soca".toList, "groovy soca".toList, "chutney soca".toList]) ]

/-- Replace the value stored under `k` (no-op when `k` is absent, matching
the aliasing of `rules = GENRE_RULES.get(genre, {})`: mutations of the
fresh fallback dictionary are lost). -/
def aupdate {β : Type} : List (Str × β) → Str → β → List (Str × β)
  | [], _, _ => []
  | (k', v') :: r, k, v =>
    if k = k' then (k', v) :: r else (k', v') :: aupdate r k v

/-- `relax_rules_if_sparse` from `v2.py` lines 1016–1050, as a state
transformer on the rule table.  When the candidate list is still below
`target_min = 4` it mutates the genre's own shared rule record in place:
the popularity cap is cleared, the require list is replaced by
`list(set(old + adjacent))` (modelled as first-occurrence de-duplication —
only the underlying set is observable downstream), and `"radio edit"` /
`"edit"` are dropped from the title denylist.  The candidate list itself
is returned unchanged. -/
def relax_rules_if_sparse (tbl : List (Str × GenreRule)) (genre : Str)
    (candidates : List Track) : List Track × List (Str × GenreRule) :=
  if 4 ≤ candidates.length then (candidates, tbl)
  else
    match alookup tbl genre with
    | none => (candidates, tbl)
    | some rules =>
      let r1 := if rules.popularity_max.isSome then { rules with popularity_max := none }
                else rules
      let adj := (alookup ADJACENT genre).getD []
      let r2 := { r1 with require_artist_genres_any :=
                    dedupFirst (r1.require_artist_genres_any ++ adj) [] }
      let r3 := { r2 with deny_name_contains :=
                    (r2.deny_name_contains.filter
                      (fun s => s ≠ "radio edit".toList && s ≠ "edit".toList)) }
      (candidates, aupdate tbl genre r3)

/-- `proto_score` from `v2.py` lines 1139–1152; `rand` is the
`random.random()` draw for the jitter term. -/
def proto_score (target_genre : Str) (t : Track) (rand : ℚ) : ℚ :=
  let tags := norm_tags (tagsOf t)
  let target := pyLower target_genre
  let exact : ℚ := if tags.any (· = target) then 1 else 0
  let boundary : ℚ := if tags.any (fun g => boundarySearch target g) then 1 else 0
  let pop := t.popularity.getD 0 / 100
  let bad_tokens : List Str :=
    ["dance pop".toList, "pop".toList, "electropop".toList, "synthpop".toList,
     "soundtrack".toList, "broadway".toList, "film soundtrack".toList, "show tunes".toList]
  let has_bad := tags.any (fun g => bad_tokens.any (fun bt => isSub bt g))
  let pop_penalty : ℚ := if pop ≥ 85/100 then 1/4 else 0
  let contam_penalty : ℚ := if has_bad then 3/10 else 0
  let very_popular := t.popularity.getD 0 ≥ 90
  let artist_penalty : ℚ := if very_popular then 3/20 else 0
  let jitter := rand * (3/100)
  (5/2) * exact + (3/2) * boundary + (1/2) * pop - pop_penalty - contam_penalty -
    artist_penalty + jitter

/-- The candidate-gathering loop for one genre (`v2.py` lines 1182–1199):
each admitted track is appended and `relax_rules_if_sparse` is then run,
threading the (mutated) rule table. -/
def famHas (parent : Str) (famIds : List Str) (t : Track) : Bool :=
  decide (parent ≠ []) && truthyS (pyOrS t.uri t.id) &&
    decide ((pyOrS t.uri t.id).getD [] ∈ famIds)

def gather (excl : List (Str × List Str)) (genre parent : Str)
    (famIds : List Str) :
    List Track → List (Str × GenreRule) → List Track → List Track × List (Str × GenreRule)
  | [], tbl, cands => (cands, tbl)
  | t :: rest, tbl, cands =>
    if ¬ genre_match excl genre (norm_tags (tagsOf t)) then
      gather excl genre parent famIds rest tbl cands
    else if ¬ passes_rules tbl genre t then
      gather excl genre parent famIds rest tbl cands
    else if famHas parent famIds t then
      gather excl genre parent famIds rest tbl cands
    else
      gather excl genre parent famIds rest
        (relax_rules_if_sparse tbl genre (cands ++ [t])).2
        (relax_rules_if_sparse tbl genre (cands ++ [t])).1

/-- The unique-candidate filter (`v2.py` lines 1206–1221).  Note the
identifier fallback is `id or uri` here, while the seen-set additions in
the pick loop use `uri or id`. -/
def v2Bad (t : Track) : Bool :=
  !truthyS (pyOrS t.id t.uri) || decide (primaryArtist t = [])

/-- The global-uniqueness skip of the unique-candidate filter. -/
def v2SeenG (flag : Bool) (gIds gArts : List Str) (t : Track) : Bool :=
  flag && (decide ((pyOrS t.id t.uri).getD [] ∈ gIds) || decide (primaryArtist t ∈ gArts))

/-- The local-seen skip of the unique-candidate filter. -/
def v2SeenL (sids sarts : List Str) (t : Track) : Bool :=
  decide ((pyOrS t.id t.uri).getD [] ∈ sids) || decide (primaryArtist t ∈ sarts)

def v2Dedup (flag : Bool) (gIds gArts : List Str) :
    List Track → List Str → List Str → List Track
  | [], _, _ => []
  | t :: rest, sids, sarts =>
    if v2Bad t then v2Dedup flag gIds gArts rest sids sarts
    else if v2SeenG flag gIds gArts t then v2Dedup flag gIds gArts rest sids sarts
    else if v2SeenL sids sarts t then v2Dedup flag gIds gArts rest sids sarts
    else t :: v2Dedup flag gIds gArts rest
      ((pyOrS t.id t.uri).getD [] :: sids) (primaryArtist t :: sarts)

/-- `if parent and (artist in family_artists): continue`. -/
def v2FamSkip (parent : Str) (famA : List Str) (t : Track) : Bool :=
  decide (parent ≠ []) && decide (primaryArtist t ∈ famA)

/-- The pick loop (`v2.py` lines 1229–1248): cap 4, skip artists already
used within the family scope, then record the accepted track's id/artist
in the family sets (when a parent exists) and the global sets (when
global uniqueness is enabled); the accepted id is `uri or id` (`tidA`).
Returns `(picked, familyArtists, familyIds, globalIds, globalArtists)`. -/
def v2TopK (flag : Bool) (parent : Str) :
    List Track → List Track → List Str → List Str → List Str → List Str →
      List Track × List Str × List Str × List Str × List Str
  | [], acc, famA, famI, gi, ga => (acc.reverse, famA, famI, gi, ga)
  | t :: rest, acc, famA, famI, gi, ga =>
    if 4 ≤ acc.length then (acc.reverse, famA, famI, gi, ga)
    else if v2FamSkip parent famA t then v2TopK flag parent rest acc famA famI gi ga
    else
      v2TopK flag parent rest (t :: acc)
        (if parent ≠ [] then primaryArtist t :: famA else famA)
        (if parent ≠ [] && truthyS (tidA t) then (tidA t).getD [] :: famI else famI)
        (if flag && truthyS (tidA t) then (tidA t).getD [] :: gi else gi)
        (if flag then primaryArtist t :: ga else ga)

/-- The mutable state of the `v2.py` genre loop: the (mutable!) rule
table, the two global seen-sets, the two family-scoped seen-set maps, the
results map and the PRNG draw counter. -/
structure St where
  tbl : List (Str × GenreRule) := []
  usedIds : List Str := []
  usedArts : List Str := []
  famIds : List (Str × List Str) := []
  famArts : List (Str × List Str) := []
  results : List (Str × List Track) := []
  ctr : Nat := 0
  deriving DecidableEq

/-- Insert-or-replace for the family maps (`defaultdict(set)`). -/
def ainsert {β : Type} : List (Str × β) → Str → β → List (Str × β)
  | [], k, v => [(k, v)]
  | (k', v') :: r, k, v =>
    if k = k' then (k', v) :: r else (k', v') :: ainsert r k v

/-- `GENRE_TO_PARENT.get(genre, "")`. -/
def parentOf (g2p : List (Str × Str)) (genre : Str) : Str :=
  (alookup g2p genre).getD []

/-- `tracks_by_genre.get(genre_lower, [])`. -/
def poolOf (pools : List (Str × List Track)) (genre : Str) : List Track :=
  (alookup pools (pyLower genre)).getD []

/-- The family id set of the genre's parent. -/
def famIdsOf (st : St) (g2p : List (Str × Str)) (genre : Str) : List Str :=
  (alookup st.famIds (parentOf g2p genre)).getD []

/-- The gather stage of one genre (candidates and the possibly mutated
rule table). -/
def gatherOf (excl : List (Str × List Str)) (g2p : List (Str × Str))
    (pools : List (Str × List Track)) (st : St) (genre : Str) :
    List Track × List (Str × GenreRule) :=
  gather excl genre (parentOf g2p genre) (famIdsOf st g2p genre)
    (poolOf pools genre) st.tbl []

/-- The unique (globally and locally de-duplicated) candidates. -/
def uniqueOf (flag : Bool) (excl : List (Str × List Str)) (g2p : List (Str × Str))
    (pools : List (Str × List Track)) (st : St) (genre : Str) : List Track :=
  v2Dedup flag st.usedIds st.usedArts (gatherOf excl g2p pools st genre).1 [] []

/-- Scored (one jitter draw per element) and sorted descending. -/
def sortedOf (flag : Bool) (excl : List (Str × List Str)) (g2p : List (Str × Str))
    (stream : Nat → ℚ) (pools : List (Str × List Track)) (st : St) (genre : Str) :
    List Track :=
  (((uniqueOf flag excl g2p pools st genre).enum.map
      (fun p => (proto_score genre p.2 (stream (st.ctr + p.1)), p.2))).insertionSort
    (fun a b => b.1 ≤ a.1)).map Prod.snd

/-- The family artist set the pick loop starts from. -/
def famArtsOf (st : St) (g2p : List (Str × Str)) (genre : Str) : List Str :=
  if parentOf g2p genre = [] then [] else (alookup st.famArts (parentOf g2p genre)).getD []

/-- The pick-loop run of one genre. -/
def pickedOf (flag : Bool) (excl : List (Str × List Str)) (g2p : List (Str × Str))
    (stream : Nat → ℚ) (pools : List (Str × List Track)) (st : St) (genre : Str) :
    List Track × List Str × List Str × List Str × List Str :=
  v2TopK flag (parentOf g2p genre) (sortedOf flag excl g2p stream pools st genre) []
    (famArtsOf st g2p genre) (famIdsOf st g2p genre) st.usedIds st.usedArts

def processGenre (flag : Bool) (excl : List (Str × List Str))
    (g2p : List (Str × Str)) (stream : Nat → ℚ)
    (pools : List (Str × List Track)) (st : St) (genre : Str) : St :=
  if (gatherOf excl g2p pools st genre).1 = [] then
    { st with tbl := ((gatherOf excl g2p pools st genre).2),
              results := (st.results ++ [(genre, [])]) }
  else if uniqueOf flag excl g2p pools st genre = [] then
    { st with tbl := ((gatherOf excl g2p pools st genre).2),
              results := (st.results ++ [(genre, [])]) }
  else
    { tbl := (gatherOf excl g2p pools st genre).2,
      usedIds := (pickedOf flag excl g2p stream pools st genre).2.2.2.1,
      usedArts := (pickedOf flag excl g2p stream pools st genre).2.2.2.2,
      famIds := if parentOf g2p genre = [] then st.famIds
        else ainsert st.famIds (parentOf g2p genre)
          (pickedOf flag excl g2p stream pools st genre).2.2.1,
      famArts := if parentOf g2p genre = [] then st.famArts
        else ainsert st.famArts (parentOf g2p genre)
          (pickedOf flag excl g2p stream pools st genre).2.1,
      results := st.results ++ [(genre, (pickedOf flag excl g2p stream pools st genre).1)],
      ctr := st.ctr + (uniqueOf flag excl g2p pools st genre).length }

/-- The whole `v2.py` selection pass over the playable genres, from empty
seen-sets and a given initial rule table.  `flag` is the module constant
`GLOBAL_UNIQUENESS` (set to `True` in the source). -/
def run (flag : Bool) (excl : List (Str × List Str)) (g2p : List (Str × Str))
    (stream : Nat → ℚ) (pools : List (Str × List Track))
    (tbl0 : List (Str × GenreRule)) (genres : List Str) : St :=
  genres.foldl (processGenre flag excl g2p stream pools) { tbl := tbl0 }

/-- The `"shoegaze"` record of `GENRE_RULES` in `v2.py` (lines 357–360). -/
def shoegazeRule : GenreRule :=
  { require_artist_genres_any :=
      ["shoegaze".toList, "nu gaze".toList, "dream pop".toList, "space rock".toList],
    deny_artist_genres_any :=
      ["soft rock".toList, "adult standards".toList, "dance pop".toList, "pop".toList] }

end V2

/-! ## The manifest builder (`killmegod.py` lines 1832–1948) -/

/-- `FEATURE_FIELDS` (`killmegod.py` line 1630). -/
def FEATURE_FIELDS : List Str :=
  ["danceability".toList, "energy".toList, "speechiness".toList, "acousticness".toList,
   "valence".toList, "popularity".toList, "instrumentalness".toList]

/-- `t.get(f)` for a feature field name. -/
def featGet (f : Str) (t : Track) : Option ℚ :=
  if f = "danceability".toList then t.danceability
  else if f = "energy".toList then t.energy
  else if f = "speechiness".toList then t.speechiness
  else if f = "acousticness".toList then t.acousticness
  else if f = "valence".toList then t.valence
  else if f = "popularity".toList then t.popularity
  else if f = "instrumentalness".toList then t.instrumentalness
  else none

/-- The non-null values of field `f` across `seeds`, in track order
(`fvals[f]` of `compute_features_from_tracks`). -/
def fvalsOf (seeds : List Track) (f : Str) : List ℚ :=
  seeds.filterMap (featGet f)

/-- Python `int(...)` on a rational: truncation toward zero. -/
def ratTrunc (q : ℚ) : ℤ := if q < 0 then -(ratFloor (-q)) else ratFloor q

/-- `int(median_sorted(sorted(years)))`. -/
def medianYearOf (years : List ℤ) : Option ℤ :=
  if years = [] then none
  else some (ratTrunc (median_sorted (pySorted (years.map (fun v => (v : ℚ))))))

/-- The entry `feat[f] = sround(median(vals), 2)` contributed by field
`f`, absent when the field has no non-null values. -/
def featEntry (seeds : List Track) (f : Str) : Option (Str × Option ℚ) :=
  match fvalsOf seeds f with
  | [] => none
  | vs => some (f, some (sround (median vs)))

/-- The two tempo entries (`killmegod.py` lines 1853–1856). -/
def tempoEntries (seeds : List Track) : List (Str × Option ℚ) :=
  match seeds.filterMap (·.tempo) with
  | [] => []
  | tempos =>
    [("tempo_bpm".toList, some (sround (median tempos))),
     ("tempo_norm".toList, some (sround (tempo_to_norm (median tempos))))]

/-- `compute_features_from_tracks` (`killmegod.py` lines 1832–1861):
per-field rounded medians of the non-null values, the median tempo and
its normalised form, and the (truncated) median release year.
The per-field dictionary is represented as an association list in
`FEATURE_FIELDS` order followed by the tempo keys; Python's insertion
order may differ, but every consumer reads it by key. -/
def compute_features_from_tracks (seeds : List Track) :
    List (Str × Option ℚ) × Option ℤ :=
  (FEATURE_FIELDS.filterMap (featEntry seeds) ++ tempoEntries seeds,
   medianYearOf (seeds.filterMap (·.release_year)))

/-- The seed payload emitted to the manifest (`killmegod.py` lines
1910–1918). -/
structure SeedPayload where
  uri : Option Str
  name : Str
  artist : Str
  popularity : ℚ
  filename : Str
  deriving DecidableEq

/-- `(t.get("artists") or ["Unknown"])[0]`. -/
def payloadArtist (t : Track) : Str :=
  match t.artists with
  | [] => "Unknown".toList
  | a :: _ => a

/-- One seed projection. -/
def mkPayload (t : Track) : SeedPayload :=
  { uri := t.uri, name := t.name, artist := payloadArtist t,
    popularity := t.popularity.getD 0,
    filename := generate_filename (payloadArtist t) t.name }

mutual
/-- The taxonomy tree (`GENRE_TREE` nodes): an optional `_seeds` key and a
named list of subgenre nodes. -/
inductive TreeNode where
  | mk (seeds_key : Option Str) (subgenres : TreeChildren)
inductive TreeChildren where
  | nil
  | cons (name : Str) (child : TreeNode) (rest : TreeChildren)
end

mutual
/-- A built manifest node: `[]`/`none` model an absent key. -/
inductive MNode where
  | mk (seeds : List SeedPayload) (features : List (Str × Option ℚ))
       (median_year : Option ℤ) (subgenres : MChildren)
inductive MChildren where
  | nil
  | cons (name : Str) (node : MNode) (rest : MChildren)
end

/-- The features of a built node. -/
def MNode.features : MNode → List (Str × Option ℚ)
  | .mk _ f _ _ => f

/-- The seeds payload of a built node. -/
def MNode.seeds : MNode → List SeedPayload
  | .mk s _ _ _ => s

/-- The median year of a built node. -/
def MNode.median_year : MNode → Option ℤ
  | .mk _ _ y _ => y

/-- The built children of a built node. -/
def MNode.subgenres : MNode → MChildren
  | .mk _ _ _ c => c

/-- Emptiness of a children map (`if built_sub:`). -/
def MChildren.isNil : MChildren → Bool
  | .nil => true
  | .cons _ _ _ => false

/-- The feature lists of the children, in insertion order
(`children_nodes.values()`). -/
def MChildren.featLists : MChildren → List (List (Str × Option ℚ))
  | .nil => []
  | .cons _ n r => n.features :: r.featLists

/-- The non-`None` `median_year` values of the children, in order. -/
def MChildren.yearList : MChildren → List ℤ
  | .nil => []
  | .cons _ n r =>
    match n.median_year with
    | some y => y :: r.yearList
    | none => r.yearList

/-- The non-null values of key `k` across the children carrying it. -/
def childVals (cs : MChildren) (k : Str) : List ℚ :=
  (cs.featLists.filterMap (fun fl => alookup fl k)).filterMap id

/-- The aggregated entry for key `k`, absent when no child carries a
non-null value for it. -/
def aggEntry (cs : MChildren) (k : Str) : Option (Str × Option ℚ) :=
  match childVals cs k with
  | [] => none
  | vs => some (k, some (sround (median vs)))

/-- The keys carried by some child, in first-occurrence order. -/
def aggKeys (cs : MChildren) : List Str :=
  dedupFirst (cs.featLists.flatMap (fun fl => fl.map Prod.fst)) []

/-- `aggregate_features_from_children` (`killmegod.py` lines 1863–1881):
for each key carried by some child (first-occurrence order), the rounded
median of the children's non-null values for that key; children lacking a
key are skipped.  Plus the median of the children's median years. -/
def aggregate_features_from_children (cs : MChildren) :
    List (Str × Option ℚ) × Option ℤ :=
  ((aggKeys cs).filterMap (aggEntry cs), medianYearOf cs.yearList)

/-- The `setdefault` pass (`killmegod.py` lines 1929–1932): append a null
entry for every configured feature key not already present. -/
def addDefaults (nf : List (Str × Option ℚ)) : List (Str × Option ℚ) :=
  (FEATURE_FIELDS ++ ["tempo_bpm".toList, "tempo_norm".toList]).foldl
    (fun acc k => if (alookup acc k).isSome then acc else acc ++ [(k, none)]) nf

/-- Path of a child node (`f"{genre_path}/{child_name}"`). -/
def childPathOf (path n : Str) : Str := if path = [] then n else path ++ ('/' :: n)

/-- The seed list a node resolves to: its `_seeds` key (for synthetic
nodes, the display name recorded for its path) looked up in the results
map. -/
def resolvedSeeds (results : List (Str × List Track)) (synth : List (Str × Str))
    (path : Str) (sk : Option Str) : List Track :=
  match sk with
  | some key =>
    let lookupKey := if key = "__synthetic__".toList then (alookup synth path).getD path
                     else key
    (alookup results lookupKey).getD []
  | none => []

/-- The direct (seed-based) feature dictionary of a node: empty when the
node resolves no seeds. -/
def directFeat (results : List (Str × List Track)) (synth : List (Str × Str))
    (path : Str) (sk : Option Str) : List (Str × Option ℚ) :=
  if resolvedSeeds results synth path sk = [] then []
  else (compute_features_from_tracks (resolvedSeeds results synth path sk)).1

/-- The direct median year of a node. -/
def directYear (results : List (Str × List Track)) (synth : List (Str × Str))
    (path : Str) (sk : Option Str) : Option ℤ :=
  if resolvedSeeds results synth path sk = [] then none
  else (compute_features_from_tracks (resolvedSeeds results synth path sk)).2

/-- The node's seeds payload. -/
def directPayload (results : List (Str × List Track)) (synth : List (Str × Str))
    (path : Str) (sk : Option Str) : List SeedPayload :=
  (resolvedSeeds results synth path sk).map mkPayload

/-- `if not node_features and built_sub: ...` — the feature dictionary
after the child backfill but before the `setdefault` pass. -/
def nodeFeatPre (results : List (Str × List Track)) (synth : List (Str × Str))
    (path : Str) (sk : Option Str) (builtSub : MChildren) : List (Str × Option ℚ) :=
  if directFeat results synth path sk = [] && !builtSub.isNil then
    (if (aggregate_features_from_children builtSub).1 = [] then
      directFeat results synth path sk
     else (aggregate_features_from_children builtSub).1)
  else directFeat results synth path sk

/-- The node's median year after the child backfill. -/
def nodeYear (results : List (Str × List Track)) (synth : List (Str × Str))
    (path : Str) (sk : Option Str) (builtSub : MChildren) : Option ℤ :=
  if directFeat results synth path sk = [] && !builtSub.isNil then
    (match (aggregate_features_from_children builtSub).2 with
     | some y => some y
     | none => directYear results synth path sk)
  else directYear results synth path sk

/-- The non-recursive per-node assembly of `build_manifest` (`killmegod.py`
lines 1886–1943), applied to the already-built children: direct seeds and
features when the node resolves a non-empty seed list, backfill from the
children when no direct features were produced, then the `setdefault`
pass. -/
def assembleNode (results : List (Str × List Track)) (synth : List (Str × Str))
    (path : Str) (sk : Option Str) (builtSub : MChildren) : MNode :=
  MNode.mk (directPayload results synth path sk)
    (if nodeFeatPre results synth path sk builtSub = [] then []
     else addDefaults (nodeFeatPre results synth path sk builtSub))
    (nodeYear results synth path sk builtSub)
    builtSub

mutual
/-- `build_manifest`: post-order recursion, children first. -/
def buildNode (results : List (Str × List Track)) (synth : List (Str × Str)) :
    Str → TreeNode → MNode
  | path, .mk sk subs =>
    assembleNode results synth path sk (buildChildren results synth path subs)
def buildChildren (results : List (Str × List Track)) (synth : List (Str × Str)) :
    Str → TreeChildren → MChildren
  | _, .nil => .nil
  | path, .cons n c rest =>
    .cons n (buildNode results synth (childPathOf path n) c)
      (buildChildren results synth path rest)
end

/-! ## Concrete fixtures used by the counterexamples and witnesses -/

/-- A Slowdive track tagged only `"alternative rock"` (the spec's
whitelist-bypass scenario). -/
def slowdiveTrack : Track :=
  { artists := ["Slowdive".toList], artist_genres := ["alternative rock".toList] }

/-- A rule table holding just the source's `"shoegaze"` record. -/
def kmgShoegazeTbl : List (Str × GenreRule) := [("shoegaze".toList, shoegazeRule)]

/-- A Slowdive track with a matching require tag but a release year and a
popularity far outside the shoegaze windows. -/
def slowdiveOldTrack : Track :=
  { artists := ["Slowdive".toList], artist_genres := ["shoegaze".toList],
    release_year := some 1900, popularity := some 0 }

/-- A rule table holding just the `v2.py` `"shoegaze"` record. -/
def v2ShoegazeTbl : List (Str × GenreRule) := [("shoegaze".toList, V2.shoegazeRule)]

/-- The `"shoegaze"` record after one underfilled relaxation call: the
require list has been widened (as a set) by the adjacent genres. -/
def relaxedShoegazeRule : GenreRule :=
  { require_artist_genres_any :=
      ["shoegaze".toList, "nu gaze".toList, "dream pop".toList, "space rock".toList,
       "noise pop".toList, "slowcore".toList, "indie rock".toList],
    deny_artist_genres_any :=
      ["soft rock".toList, "adult standards".toList, "dance pop".toList, "pop".toList] }

/-- A track whose only feature value has three decimal places. -/
def c3Track : Track :=
  { uri := some "u1".toList, artists := ["a".toList], name := "n".toList,
    danceability := some (111/1000) }

/-- A leaf taxonomy node with seed key `"g"`. -/
def c3Leaf : TreeNode := TreeNode.mk (some "g".toList) TreeChildren.nil

/-- A track with danceability `1/10` (C3 witness, child 1). -/
def c3T1 : Track :=
  { uri := some "u2".toList, artists := ["b".toList], name := "m".toList,
    danceability := some (1/10) }

/-- A track with danceability `3/10` and energy `1/2` (C3 witness, child 2). -/
def c3T2 : Track :=
  { uri := some "u3".toList, artists := ["c".toList], name := "o".toList,
    danceability := some (3/10), energy := some (1/2) }

/-- Two leaf children under the C3 witness parent. -/
def c3ParentSubs : TreeChildren :=
  TreeChildren.cons "c1".toList (TreeNode.mk (some "g1".toList) TreeChildren.nil)
    (TreeChildren.cons "c2".toList (TreeNode.mk (some "g2".toList) TreeChildren.nil)
      TreeChildren.nil)

/-- A parent node with no seed key and two leaf children. -/
def c3Parent : TreeNode := TreeNode.mk none c3ParentSubs

/-- The results map for the C3 witness parent. -/
def c3Results : List (Str × List Track) := [("g1".toList, [c3T1]), ("g2".toList, [c3T2])]

/-- One of six interchangeable punk-tagged tracks for the C4 witness. -/
def c4Track (uri artist : Str) : Track :=
  { uri := some uri, artists := [artist], artist_genres := ["punk".toList] }

/-- Six distinct punk candidates. -/
def c4Pool : List Track :=
  [c4Track "u1".toList "a1".toList, c4Track "u2".toList "a2".toList,
   c4Track "u3".toList "a3".toList, c4Track "u4".toList "a4".toList,
   c4Track "u5".toList "a5".toList, c4Track "u6".toList "a6".toList]

/-- A one-bucket genre index for the C4 witness. -/
def c4Index : List (Str × List Track) := [("punk".toList, c4Pool)]

/-- A track tagged for both witness genres (C1 witness). -/
def c1TA : Track :=
  { uri := some "ua".toList, artists := ["Ann".toList],
    artist_genres := ["alpha".toList, "beta".toList] }

/-- A track tagged for the second witness genre only. -/
def c1TB : Track :=
  { uri := some "ub".toList, artists := ["Bob".toList],
    artist_genres := ["beta".toList] }

/-- Candidate pools for the C1 witness run. -/
def c1Pools : List (Str × List Track) :=
  [("alpha".toList, [c1TA]), ("beta".toList, [c1TA, c1TB])]

end HTG

/-! # Theorems -/

namespace HTG

/-- A string is a substring of itself. -/
theorem isSub_refl (s : Str) : isSub s s = true := by
  have h0 : (0 : Nat) ∈ List.range (s.length + 1) := by
    simp [List.mem_range]
  refine List.any_eq_true.mpr ⟨0, h0, ?_⟩
  simp [List.isPrefixOf_iff_prefix]

/-- **C5**: `linear_quantile` interpolates linearly between order
statistics at index `(n-1)*q`: a single value is returned unchanged, and
for `[10, 20, 30, 40]` the p50 (index `1.5`) is `25` and the p10 (index
`0.3`) is `13`. -/
theorem c5_linear_quantile :
    (∀ v q : ℚ, linear_quantile [v] q = some v) ∧
    linear_quantile [10, 20, 30, 40] (1/2) = some 25 ∧
    linear_quantile [10, 20, 30, 40] (1/10) = some 13 := by
  refine ⟨fun v q => rfl, by with_unfolding_all decide, by with_unfolding_all decide⟩

/-- **C6**: `genre_match` boundary-matches `"punk"` inside the compound
tag `"post-punk"` whenever no configured exclusion substring occurs in any
tag; and once the exclusion table maps `"punk"` to a list containing
`"pop"`, any tag set in which some tag contains `"pop"` is rejected
outright, regardless of the other tags. -/
theorem c6_genre_match :
    (∀ tags : List Str, "post-punk".toList ∈ tags →
      (∀ e ∈ (alookup EXCLUSIONS "punk".toList).getD [], ∀ g ∈ tags,
        isSub (pyLower e) (pyLower g) = false) →
      genre_match EXCLUSIONS "punk".toList tags = true) ∧
    (∀ (excl : List (Str × List Str)) (exs tags : List Str),
      alookup excl "punk".toList = some exs → "pop".toList ∈ exs →
      (∃ g ∈ tags, isSub "pop".toList (pyLower g) = true) →
      genre_match excl "punk".toList tags = false) := by
  constructor
  · intro tags hmem hexcl
    have hcond : (((alookup EXCLUSIONS "punk".toList).getD []).any
        (fun e => tags.any (fun g => isSub (pyLower e) (pyLower g)))) = false := by
      rw [List.any_eq_false]
      intro e he
      rw [Bool.not_eq_true, List.any_eq_false]
      intro g hg
      rw [Bool.not_eq_true]
      exact hexcl e he g hg
    unfold genre_match
    rw [hcond]
    simp only [Bool.false_eq_true, if_false]
    exact List.any_eq_true.mpr ⟨"post-punk".toList, hmem, by decide⟩
  · intro excl exs tags ha hpop hg
    obtain ⟨g, hgmem, hsub⟩ := hg
    have hcond : (((alookup excl "punk".toList).getD []).any
        (fun e => tags.any (fun g => isSub (pyLower e) (pyLower g)))) = true := by
      rw [ha]
      refine List.any_eq_true.mpr ⟨"pop".toList, by simpa using hpop, ?_⟩
      refine List.any_eq_true.mpr ⟨g, hgmem, ?_⟩
      have hp : pyLower "pop".toList = "pop".toList := by decide
      rw [hp]
      exact hsub
    unfold genre_match
    rw [hcond]
    simp

/-- **C6 witness**: both parts at concrete inputs: `{"post-punk"}` matches
`"punk"`, and with exclusions `punk ↦ {"pop"}` the tag set
`{"pop punk", "punk"}` fails even though it contains `"punk"` itself. -/
theorem c6_genre_match_witness :
    genre_match EXCLUSIONS "punk".toList ["post-punk".toList] = true ∧
    genre_match [("punk".toList, ["pop".toList])] "punk".toList
      ["pop punk".toList, "punk".toList] = false := by
  constructor
  · exact c6_genre_match.1 ["post-punk".toList] (by decide) (by decide)
  · exact c6_genre_match.2 [("punk".toList, ["pop".toList])] ["pop".toList]
      ["pop punk".toList, "punk".toList] (by decide) (by decide)
      ⟨"pop punk".toList, by decide, by decide⟩

/-- **C2 counterexample**: the claim is false as stated.  Under the
source's `"shoegaze"` rule (which configures both a whitelist containing
`"Slowdive"` and a require list), the track by `"Slowdive"` tagged only
`{"alternative rock"}` is rejected: `passes_rules` evaluates the
require-tag gate before the whitelist bypass. -/
theorem c2_whitelist_counterexample :
    passes_rules kmgShoegazeTbl "shoegaze".toList slowdiveTrack = false := by
  with_unfolding_all decide

/-- **C2 amended**: the whitelist bypass sits after the deny-tag,
require-tag and name/artist-deny gates and skips only the numeric gates:
whenever those four gates pass and the primary artist (case-insensitively)
matches a whitelist entry, the track is admitted regardless of its
release year and popularity. -/
theorem c2_whitelist_after_require
    (tbl : List (Str × GenreRule)) (g : Str) (r : GenreRule) (t : Track)
    (hr : alookup tbl (pyLower g) = some r)
    (hdeny : r.deny_artist_genres_any.any
      (fun d => ((tagsOf t).map pyLower).any (fun x => boundarySearch (pyLower d) x)) = false)
    (hreq : r.require_artist_genres_any ≠ [] →
      r.require_artist_genres_any.any
        (fun rq => ((tagsOf t).map pyLower).any (fun x => boundarySearch (pyLower rq) x)) = true)
    (hname : r.deny_name_contains.any
      (fun d => isSub (pyLower d) (pyLower t.name)) = false)
    (hart : r.deny_artist_contains.any
      (fun d => isSub (pyLower d) (pyLower (primaryArtist t))) = false)
    (hw : ∃ w ∈ r.whitelist_artists, pyLower w = pyLower (primaryArtist t)) :
    passes_rules tbl g t = true := by
  obtain ⟨w, hwmem, hweq⟩ := hw
  have hwl : (r.whitelist_artists.any
      (fun w => isSub (pyLower w) (pyLower (primaryArtist t)))) = true := by
    refine List.any_eq_true.mpr ⟨w, hwmem, ?_⟩
    rw [hweq]
    exact isSub_refl _
  have hreq' : (r.require_artist_genres_any ≠ [] &&
      !(r.require_artist_genres_any.any
        (fun rq => ((tagsOf t).map pyLower).any (fun x => boundarySearch (pyLower rq) x)))) = false := by
    by_cases hz : r.require_artist_genres_any = []
    · simp [hz]
    · have h2 := hreq hz
      rw [h2]
      simp
  unfold passes_rules
  rw [hr]
  simp only [hdeny, hreq', hname, hart, hwl]
  simp

/-- **C2 witness** for the amended theorem: the whitelisted Slowdive track
with a matching `"shoegaze"` tag is admitted although its year (1900) and
popularity (0) lie outside the configured windows. -/
theorem c2_whitelist_witness :
    passes_rules kmgShoegazeTbl "shoegaze".toList slowdiveOldTrack = true := by
  refine c2_whitelist_after_require kmgShoegazeTbl "shoegaze".toList shoegazeRule
    slowdiveOldTrack (by decide) (by decide) (fun _ => by decide) (by decide) (by decide)
    ⟨"Slowdive".toList, by decide, by decide⟩

/-- **C7**: `generate_filename` on the spec's scenario input.  The
non-greedy credit pattern `[^)]+?\)?` consumes only one character of the
credited name (no closing parenthesis follows it immediately), so
`" (feat. J"` is removed and the residue `"ay-Z)"` survives into the slug:
the output is `"beyonc-crazy-in-loveay-z.json"`, not the
`"beyonc-crazy-in-love.json"` required by the claim. -/
theorem c7_filename_divergence :
    generate_filename "Beyoncé ".toList "Crazy In Love (feat. Jay-Z)".toList
      = "beyonc-crazy-in-loveay-z.json".toList ∧
    "beyonc-crazy-in-loveay-z.json".toList ≠ "beyonc-crazy-in-love.json".toList := by
  exact ⟨by decide, by decide⟩

/-- **C10**: the ingestion cleanup equals dropping every track whose title
contains a word-bounded feature marker (`feat`, `feat.`, `ft`, `ft.`,
`featuring`, `with`, case-insensitively) and stripping feature credits
from the name and every artist string of each survivor. -/
theorem c10_cleanup (ts : List Track) :
    cleaned_tracks ts = (ts.filter (fun t => !hasFeatToken t.name)).map cleanupTrack := by
  induction ts with
  | nil => rfl
  | cons t r ih =>
    by_cases h : hasFeatToken t.name
    · simp [cleaned_tracks, h, ih]
    · simp [cleaned_tracks, h, ih]

/-- **C9**: the `v2.py` relaxation step mutates the shared rule table in
place: called for `"shoegaze"` with an underfilled candidate list it
permanently widens the stored require list by the adjacent genres
(`"indie rock"` among them), so the table after the call differs from the
table before it. -/
theorem c9_relax_mutates_table :
    (V2.relax_rules_if_sparse v2ShoegazeTbl "shoegaze".toList []).2 ≠ v2ShoegazeTbl ∧
    alookup (V2.relax_rules_if_sparse v2ShoegazeTbl "shoegaze".toList []).2 "shoegaze".toList
      = some relaxedShoegazeRule ∧
    "indie rock".toList ∈ relaxedShoegazeRule.require_artist_genres_any ∧
    "indie rock".toList ∉ V2.shoegazeRule.require_artist_genres_any := by
  refine ⟨by decide, by decide, by decide, by decide⟩

/-- **C8**: the selection pass is a pure function of dataset,
configuration and seed — the PRNG stream is derived once from the seed —
so two runs with equal seeds over equal inputs give equal results maps. -/
theorem c8_determinism (excl : List (Str × List Str)) (tbl : List (Str × GenreRule))
    (denyUris : List Str) (tracks : List Track) (genres : List Str)
    (s1 s2 : Nat) (h : s1 = s2) :
    kmgRunSeeded excl tbl denyUris tracks genres s1
      = kmgRunSeeded excl tbl denyUris tracks genres s2 := by
  rw [h]

/-- **C8 witness**: the determinism theorem applied at the configured
seed on a concrete (empty) dataset. -/
theorem c8_determinism_witness :
    kmgRunSeeded [] [] [] [] [] random_seed = kmgRunSeeded [] [] [] [] [] random_seed :=
  c8_determinism [] [] [] [] [] random_seed random_seed rfl


/-! ### Association-list and de-duplication lemmas -/

theorem alookup_cons {β : Type} (a : Str) (b : β) (r : List (Str × β)) (k : Str) :
    alookup ((a, b) :: r) k = if k = a then some b else alookup r k := rfl

theorem alookup_append {β : Type} (l1 l2 : List (Str × β)) (k : Str) :
    alookup (l1 ++ l2) k = ((alookup l1 k).orElse fun _ => alookup l2 k) := by
  induction l1 with
  | nil => rfl
  | cons p r ih =>
    obtain ⟨a, b⟩ := p
    rw [List.cons_append, alookup_cons, alookup_cons]
    by_cases h : k = a
    · rw [if_pos h, if_pos h]
      rfl
    · rw [if_neg h, if_neg h, ih]

theorem alookup_mem_keys {β : Type} :
    ∀ (l : List (Str × β)) (k : Str) (v : β), alookup l k = some v → k ∈ l.map Prod.fst := by
  intro l
  induction l with
  | nil => intro k v h; cases h
  | cons p r ih =>
    obtain ⟨a, b⟩ := p
    intro k v h
    by_cases hk : k = a
    · subst hk
      simp only [List.map_cons, List.mem_cons]
      exact Or.inl trivial
    · rw [alookup_cons, if_neg hk] at h
      simp only [List.map_cons, List.mem_cons]
      exact Or.inr (ih k v h)

theorem alookup_filterMap_of_not_mem {β : Type} (mk : Str → Option (Str × β))
    (hk : ∀ g p, mk g = some p → p.1 = g) :
    ∀ (fields : List Str) (f : Str), f ∉ fields → alookup (fields.filterMap mk) f = none := by
  intro fields
  induction fields with
  | nil => intro f _; rfl
  | cons g r ih =>
    intro f hf
    have hfg : f ≠ g := by intro h; exact hf (by simp [h])
    have hfr : f ∉ r := by intro h; exact hf (by simp [h])
    rw [List.filterMap_cons]
    cases hmk : mk g with
    | none => exact ih f hfr
    | some p =>
      obtain ⟨a, b⟩ := p
      have ha : a = g := hk g (a, b) hmk
      rw [alookup_cons, if_neg (ha ▸ hfg)]
      exact ih f hfr

theorem alookup_filterMap_keyed {β : Type} (mk : Str → Option (Str × β))
    (hk : ∀ g p, mk g = some p → p.1 = g) :
    ∀ (fields : List Str), fields.Nodup → ∀ f ∈ fields,
      alookup (fields.filterMap mk) f = (mk f).map Prod.snd := by
  intro fields
  induction fields with
  | nil => intro _ f hf; cases hf
  | cons g r ih =>
    intro hnd f hf
    have hgr : g ∉ r := (List.nodup_cons.mp hnd).1
    have hrnd : r.Nodup := (List.nodup_cons.mp hnd).2
    rw [List.filterMap_cons]
    by_cases hfg : f = g
    · subst hfg
      cases hmk : mk f with
      | none =>
        rw [alookup_filterMap_of_not_mem mk hk r f hgr]
        rfl
      | some p =>
        obtain ⟨a, b⟩ := p
        have ha : a = f := hk f (a, b) hmk
        rw [alookup_cons, if_pos ha.symm]
        rfl
    · have hfr : f ∈ r := by
        rcases List.mem_cons.mp hf with h | h
        · exact absurd h hfg
        · exact h
      cases hmk : mk g with
      | none => exact ih hrnd f hfr
      | some p =>
        obtain ⟨a, b⟩ := p
        have ha : a = g := hk g (a, b) hmk
        rw [alookup_cons, if_neg (ha ▸ hfg)]
        exact ih hrnd f hfr

theorem alookup_foldl_setdefault :
    ∀ (ks : List Str) (nf : List (Str × Option ℚ)) (f : Str) (v : Option ℚ),
      alookup nf f = some v →
      alookup (ks.foldl
        (fun acc k => if (alookup acc k).isSome then acc else acc ++ [(k, none)]) nf) f
        = some v := by
  intro ks
  induction ks with
  | nil => intro nf f v h; exact h
  | cons k kr ih =>
    intro nf f v h
    rw [List.foldl_cons]
    apply ih
    by_cases hc : (alookup nf k).isSome
    · simpa [hc] using h
    · have hc' : (alookup nf k).isSome = false := by simpa using hc
      rw [hc']
      simp only [Bool.false_eq_true, if_false]
      rw [alookup_append, h]
      rfl

theorem alookup_addDefaults (nf : List (Str × Option ℚ)) (f : Str) (v : Option ℚ)
    (h : alookup nf f = some v) : alookup (addDefaults nf) f = some v :=
  alookup_foldl_setdefault _ nf f v h

theorem dedupFirst_props : ∀ (l seen : List Str),
    (dedupFirst l seen).Nodup ∧ ∀ a ∈ dedupFirst l seen, a ∉ seen := by
  intro l
  induction l with
  | nil => intro seen; exact ⟨List.nodup_nil, by simp [dedupFirst]⟩
  | cons a r ih =>
    intro seen
    by_cases h : a ∈ seen
    · simpa [dedupFirst, h] using ih seen
    · have hI := ih (a :: seen)
      simp only [dedupFirst, if_neg h]
      constructor
      · refine List.nodup_cons.mpr ⟨?_, hI.1⟩
        intro hmem
        exact hI.2 a hmem (by simp)
      · intro b hb
        rcases List.mem_cons.mp hb with rfl | hb'
        · exact h
        · have := hI.2 b hb'
          intro hbs
          exact this (by simp [hbs])

theorem mem_dedupFirst : ∀ (l seen : List Str) (a : Str),
    a ∈ l → a ∉ seen → a ∈ dedupFirst l seen := by
  intro l
  induction l with
  | nil => intro seen a ha _; cases ha
  | cons b r ih =>
    intro seen a ha hs
    by_cases hb : b ∈ seen
    · have hab : a ≠ b := by intro h; exact hs (h ▸ hb)
      have har : a ∈ r := by
        rcases List.mem_cons.mp ha with h | h
        · exact absurd h hab
        · exact h
      simpa [dedupFirst, hb] using ih seen a har hs
    · simp only [dedupFirst, if_neg hb]
      by_cases hab : a = b
      · simp [hab]
      · have har : a ∈ r := by
          rcases List.mem_cons.mp ha with h | h
          · exact absurd h hab
          · exact h
        have has : a ∉ b :: seen := by
          intro hmem
          rcases List.mem_cons.mp hmem with h | h
          · exact hab h
          · exact hs h
        exact List.mem_cons.mpr (Or.inr (ih (b :: seen) a har has))

/-! ### Feature-dictionary lookup lemmas -/

theorem featEntry_key (seeds : List Track) :
    ∀ g p, featEntry seeds g = some p → p.1 = g := by
  intro g p h
  unfold featEntry at h
  cases hc : fvalsOf seeds g with
  | nil => rw [hc] at h; cases h
  | cons x xs => rw [hc] at h; cases h; rfl

theorem alookup_compute_features (seeds : List Track) (f : Str)
    (hf : f ∈ FEATURE_FIELDS) (hv : fvalsOf seeds f ≠ []) :
    alookup (compute_features_from_tracks seeds).1 f
      = some (some (sround (median (fvalsOf seeds f)))) := by
  have hnd : FEATURE_FIELDS.Nodup := by decide
  show alookup (FEATURE_FIELDS.filterMap (featEntry seeds) ++ tempoEntries seeds) f = _
  rw [alookup_append]
  rw [alookup_filterMap_keyed (featEntry seeds) (featEntry_key seeds) FEATURE_FIELDS hnd f hf]
  cases hc : fvalsOf seeds f with
  | nil => exact absurd hc hv
  | cons x xs =>
    unfold featEntry
    rw [hc]
    rfl

theorem aggEntry_key (cs : MChildren) :
    ∀ g p, aggEntry cs g = some p → p.1 = g := by
  intro g p h
  unfold aggEntry at h
  cases hc : childVals cs g with
  | nil => rw [hc] at h; cases h
  | cons x xs => rw [hc] at h; cases h; rfl

theorem alookup_aggregate (cs : MChildren) (f : Str) (hv : childVals cs f ≠ []) :
    alookup (aggregate_features_from_children cs).1 f
      = some (some (sround (median (childVals cs f)))) := by
  have hmem : f ∈ aggKeys cs := by
    have h1 : cs.featLists.filterMap (fun fl => alookup fl f) ≠ [] := by
      intro h
      apply hv
      unfold childVals
      rw [h]
      rfl
    have h2 : ∃ fl ∈ cs.featLists, alookup fl f ≠ none := by
      by_contra hno
      push_neg at hno
      exact h1 (List.filterMap_eq_nil_iff.mpr hno)
    obtain ⟨fl, hfl, hsome⟩ := h2
    obtain ⟨v, hvs⟩ := Option.ne_none_iff_exists'.mp hsome
    have hkeys : f ∈ fl.map Prod.fst := alookup_mem_keys fl f v hvs
    have hflat : f ∈ cs.featLists.flatMap (fun fl => fl.map Prod.fst) :=
      List.mem_flatMap.mpr ⟨fl, hfl, hkeys⟩
    exact mem_dedupFirst _ [] f hflat (by simp)
  have hnd : (aggKeys cs).Nodup := (dedupFirst_props _ []).1
  show alookup ((aggKeys cs).filterMap (aggEntry cs)) f = _
  rw [alookup_filterMap_keyed (aggEntry cs) (aggEntry_key cs) (aggKeys cs) hnd f hmem]
  cases hc : childVals cs f with
  | nil => exact absurd hc hv
  | cons x xs =>
    unfold aggEntry
    rw [hc]
    rfl

theorem assembleNode_direct (results : List (Str × List Track)) (synth : List (Str × Str))
    (path : Str) (sk : Option Str) (builtSub : MChildren) (f : Str)
    (hf : f ∈ FEATURE_FIELDS)
    (hv : fvalsOf (resolvedSeeds results synth path sk) f ≠ []) :
    alookup (assembleNode results synth path sk builtSub).features f
      = some (some (sround (median (fvalsOf (resolvedSeeds results synth path sk) f)))) := by
  have hS : resolvedSeeds results synth path sk ≠ [] := by
    intro h
    apply hv
    rw [h]
    rfl
  have hd : directFeat results synth path sk
      = (compute_features_from_tracks (resolvedSeeds results synth path sk)).1 := by
    unfold directFeat
    rw [if_neg hS]
  have hlook := alookup_compute_features (resolvedSeeds results synth path sk) f hf hv
  have hdn : directFeat results synth path sk ≠ [] := by
    rw [hd]
    intro h
    rw [h] at hlook
    cases hlook
  have hpre : nodeFeatPre results synth path sk builtSub = directFeat results synth path sk := by
    unfold nodeFeatPre
    simp [hdn]
  show alookup (if nodeFeatPre results synth path sk builtSub = [] then []
      else addDefaults (nodeFeatPre results synth path sk builtSub)) f = _
  rw [hpre, if_neg hdn]
  exact alookup_addDefaults _ f _ (hd ▸ hlook)

theorem assembleNode_backfill (results : List (Str × List Track)) (synth : List (Str × Str))
    (path : Str) (sk : Option Str) (builtSub : MChildren) (f : Str)
    (hd : directFeat results synth path sk = [])
    (hb : builtSub.isNil = false)
    (hv : childVals builtSub f ≠ []) :
    alookup (assembleNode results synth path sk builtSub).features f
      = some (some (sround (median (childVals builtSub f)))) := by
  have hlook := alookup_aggregate builtSub f hv
  have hagn : (aggregate_features_from_children builtSub).1 ≠ [] := by
    intro h
    rw [h] at hlook
    cases hlook
  have hpre : nodeFeatPre results synth path sk builtSub
      = (aggregate_features_from_children builtSub).1 := by
    unfold nodeFeatPre
    simp [hd, hb, hagn]
  have hpn : nodeFeatPre results synth path sk builtSub ≠ [] := by
    rw [hpre]
    exact hagn
  show alookup (if nodeFeatPre results synth path sk builtSub = [] then []
      else addDefaults (nodeFeatPre results synth path sk builtSub)) f = _
  rw [if_neg hpn, hpre]
  exact alookup_addDefaults _ f _ hlook

set_option maxRecDepth 4000 in
/-- **C3 counterexample**: the claim is false as stated.  A leaf whose
single seed has danceability `0.111` emits `0.11` (the median rounded to
two decimals), not the median `0.111`; and the `v2.py` variant's
even-count `median` is the lower middle order statistic (`20` for
`[10, 20, 30, 40]`), not the claimed mean of the two middles (`25`, which
the `killmegod.py` variant computes). -/
theorem c3_counterexample :
    alookup (buildNode [("g".toList, [c3Track])] [] [] c3Leaf).features "danceability".toList
      = some (some (11/100)) ∧
    median (fvalsOf [c3Track] "danceability".toList) = 111/1000 ∧
    ((11 : ℚ)/100) ≠ 111/1000 ∧
    median [(10 : ℚ), 20, 30, 40] = 25 ∧
    v2_median [(10 : ℚ), 20, 30, 40] = 20 := by
  refine ⟨?_, ?_, ?_, ?_, ?_⟩ <;> with_unfolding_all decide

/-- **C3 amended**: every emitted feature field of a built node equals the
two-decimal rounding (`sround`) of the median of the non-null values: of
the node's own seed values when the node resolves a non-empty seed list
with at least one non-null value of that field, and otherwise — when the
direct feature dictionary is empty and the node has built children — of
the values of the children that carry the field (children lacking it are
skipped, not treated as zero).  `killmegod.py`'s even-count median is the
mean of the two middle order statistics, while `v2.py`'s `median_sorted`
returns the lower middle order statistic. -/
theorem c3_feature_aggregation (results : List (Str × List Track))
    (synth : List (Str × Str)) (path : Str) (sk : Option Str) (subs : TreeChildren) :
    (∀ f ∈ FEATURE_FIELDS,
      fvalsOf (resolvedSeeds results synth path sk) f ≠ [] →
      alookup (buildNode results synth path (TreeNode.mk sk subs)).features f
        = some (some (sround (median (fvalsOf (resolvedSeeds results synth path sk) f))))) ∧
    (∀ f : Str,
      directFeat results synth path sk = [] →
      (buildChildren results synth path subs).isNil = false →
      childVals (buildChildren results synth path subs) f ≠ [] →
      alookup (buildNode results synth path (TreeNode.mk sk subs)).features f
        = some (some (sround (median (childVals (buildChildren results synth path subs) f))))) ∧
    (∀ a b : ℚ, a ≤ b → v2_median [a, b] = a) := by
  refine ⟨?_, ?_, ?_⟩
  · intro f hf hv
    exact assembleNode_direct results synth path sk (buildChildren results synth path subs) f hf hv
  · intro f hd hb hv
    exact assembleNode_backfill results synth path sk (buildChildren results synth path subs) f hd hb hv
  · intro a b hab
    unfold v2_median v2_median_sorted pySorted
    simp [List.insertionSort, List.orderedInsert, hab]

/-- **C3 witness**: the amended theorem at concrete inputs — a leaf with
one seed, a parent with two children (one of which lacks the `energy`
field), and the v2 even-count median at `[1, 2]`. -/
theorem c3_feature_aggregation_witness :
    alookup (buildNode [("g".toList, [c3Track])] [] [] c3Leaf).features "danceability".toList
      = some (some (sround (median (fvalsOf
          (resolvedSeeds [("g".toList, [c3Track])] [] [] (some "g".toList))
          "danceability".toList)))) ∧
    alookup (buildNode c3Results [] [] (TreeNode.mk none c3ParentSubs)).features
        "danceability".toList
      = some (some (sround (median (childVals (buildChildren c3Results [] [] c3ParentSubs)
          "danceability".toList)))) ∧
    v2_median [(1 : ℚ), 2] = 1 := by
  refine ⟨?_, ?_, ?_⟩
  · exact (c3_feature_aggregation [("g".toList, [c3Track])] [] []
      (some "g".toList) TreeChildren.nil).1 "danceability".toList (by decide)
      (by with_unfolding_all decide)
  · exact (c3_feature_aggregation c3Results [] [] none c3ParentSubs).2.1
      "danceability".toList (by with_unfolding_all decide) (by with_unfolding_all decide)
      (by with_unfolding_all decide)
  · exact (c3_feature_aggregation [] [] [] none TreeChildren.nil).2.2 1 2 (by norm_num)



/-! ### Selection-loop lemmas for `killmegod.py` -/

theorem truthyS_iff (o : Option Str) : truthyS o = true ↔ ∃ s, o = some s ∧ s ≠ [] := by
  cases o with
  | none => simp [truthyS]
  | some s => simp [truthyS]

theorem kmgDedup_props : ∀ (l : List Track) (sids sarts : List Str),
    ((kmgDedup l sids sarts).map tidA).Nodup ∧
    ((kmgDedup l sids sarts).map artA).Nodup ∧
    (∀ t ∈ kmgDedup l sids sarts,
      tidA t = some ((tidA t).getD []) ∧ (tidA t).getD [] ∉ sids ∧ artA t ∉ sarts) := by
  intro l
  induction l with
  | nil =>
    intro sids sarts
    exact ⟨List.nodup_nil, List.nodup_nil, by intro t ht; cases ht⟩
  | cons t r ih =>
    intro sids sarts
    by_cases hb : kmgBad t = true
    · simpa [kmgDedup, hb] using ih sids sarts
    · by_cases hs : kmgSeen sids sarts t = true
      · have hb' : kmgBad t = false := by simpa using hb
        simpa [kmgDedup, hb', hs] using ih sids sarts
      · have hb' : kmgBad t = false := by simpa using hb
        have hs' : kmgSeen sids sarts t = false := by simpa using hs
        have hD : kmgDedup (t :: r) sids sarts
            = t :: kmgDedup r ((tidA t).getD [] :: sids) (artA t :: sarts) := by
          simp [kmgDedup, hb', hs']
        have htr : truthyS (tidA t) = true := by
          unfold kmgBad at hb'
          rcases Bool.or_eq_false_iff.mp hb' with ⟨h1, _⟩
          simpa using h1
        have htid : tidA t = some ((tidA t).getD []) := by
          obtain ⟨sv, hsv, _⟩ := (truthyS_iff _).mp htr
          rw [hsv]
          rfl
        have hseen : (tidA t).getD [] ∉ sids ∧ artA t ∉ sarts := by
          unfold kmgSeen at hs'
          rcases Bool.or_eq_false_iff.mp hs' with ⟨h1, h2⟩
          exact ⟨by simpa using h1, by simpa using h2⟩
        obtain ⟨ih1, ih2, ih3⟩ := ih ((tidA t).getD [] :: sids) (artA t :: sarts)
        rw [hD]
        refine ⟨?_, ?_, ?_⟩
        · rw [List.map_cons]
          refine List.nodup_cons.mpr ⟨?_, ih1⟩
          intro hmem
          obtain ⟨u, hu, hequ⟩ := List.mem_map.mp hmem
          obtain ⟨hu1, hu2, _⟩ := ih3 u hu
          apply hu2
          have : (tidA u).getD [] = (tidA t).getD [] := by rw [hequ]
          rw [this]
          exact List.mem_cons_self _ _
        · rw [List.map_cons]
          refine List.nodup_cons.mpr ⟨?_, ih2⟩
          intro hmem
          obtain ⟨u, hu, hequ⟩ := List.mem_map.mp hmem
          obtain ⟨_, _, hu3⟩ := ih3 u hu
          apply hu3
          rw [hequ]
          exact List.mem_cons_self _ _
        · intro u hu
          rcases List.mem_cons.mp hu with rfl | hu'
          · exact ⟨htid, hseen.1, hseen.2⟩
          · obtain ⟨h1, h2, h3⟩ := ih3 u hu'
            refine ⟨h1, fun hx => h2 (List.mem_cons_of_mem _ hx),
              fun hx => h3 (List.mem_cons_of_mem _ hx)⟩

theorem kmgTopK_le : ∀ (K : Nat) (l acc : List Track)
    (gids : List (Option Str)) (garts : List Str),
    acc.length ≤ K → ((kmgTopK K l acc gids garts).1).length ≤ K := by
  intro K l
  induction l with
  | nil => intro acc gids garts h; simpa [kmgTopK] using h
  | cons t r ih =>
    intro acc gids garts h
    by_cases hK : K ≤ acc.length
    · simpa [kmgTopK, hK] using h
    · by_cases hs : kmgSeenG gids garts t = true
      · simpa [kmgTopK, hK, hs] using ih acc gids garts h
      · have hs' : kmgSeenG gids garts t = false := by simpa using hs
        have hlen : (t :: acc).length ≤ K := by
          simp only [List.length_cons]
          omega
        simpa [kmgTopK, hK, hs'] using ih (t :: acc) _ _ hlen

theorem kmgTopK_length : ∀ (K : Nat) (l acc : List Track)
    (gids : List (Option Str)) (garts : List Str),
    acc.length ≤ K → (l.map tidA).Nodup → (l.map artA).Nodup →
    ((kmgTopK K l acc gids garts).1).length
      = min K (acc.length + (l.filter (eligK gids garts)).length) := by
  intro K l
  induction l with
  | nil =>
    intro acc gids garts hK _ _
    simp only [kmgTopK, List.filter_nil, List.length_nil, Nat.add_zero, List.length_reverse]
    omega
  | cons t r ih =>
    intro acc gids garts hK hnd1 hnd2
    rw [List.map_cons] at hnd1 hnd2
    have h1 := List.nodup_cons.mp hnd1
    have h2 := List.nodup_cons.mp hnd2
    by_cases hKa : K ≤ acc.length
    · have hEq : acc.length = K := le_antisymm hK hKa
      have hstep : kmgTopK K (t :: r) acc gids garts = (acc.reverse, gids, garts) := by
        simp [kmgTopK, hKa]
      rw [hstep]
      simp only [List.length_reverse]
      omega
    · by_cases hs : kmgSeenG gids garts t = true
      · have hmem : tidA t ∈ gids ∨ artA t ∈ garts := by
          unfold kmgSeenG at hs
          rcases Bool.or_eq_true_iff.mp hs with h | h
          · exact Or.inl (by simpa using h)
          · exact Or.inr (by simpa using h)
        have helig : eligK gids garts t = false := by
          unfold eligK
          rcases hmem with h | h
          · simp [h]
          · simp [h]
        have hstep : kmgTopK K (t :: r) acc gids garts = kmgTopK K r acc gids garts := by
          simp [kmgTopK, hKa, hs]
        rw [hstep, ih acc gids garts hK h1.2 h2.2]
        simp [List.filter_cons, helig]
      · have hs' : kmgSeenG gids garts t = false := by simpa using hs
        have hmem : tidA t ∉ gids ∧ artA t ∉ garts := by
          unfold kmgSeenG at hs'
          rcases Bool.or_eq_false_iff.mp hs' with ⟨ha, hb⟩
          exact ⟨by simpa using ha, by simpa using hb⟩
        have helig : eligK gids garts t = true := by
          unfold eligK
          simp [hmem.1, hmem.2]
        have hstep : kmgTopK K (t :: r) acc gids garts
            = kmgTopK K r (t :: acc) (tidA t :: gids) (artA t :: garts) := by
          simp [kmgTopK, hKa, hs']
        have hfe : r.filter (eligK (tidA t :: gids) (artA t :: garts))
            = r.filter (eligK gids garts) := by
          apply List.filter_congr
          intro u hu
          have hne1 : tidA u ≠ tidA t := by
            intro he
            exact h1.1 (he ▸ List.mem_map_of_mem tidA hu)
          have hne2 : artA u ≠ artA t := by
            intro he
            exact h2.1 (he ▸ List.mem_map_of_mem artA hu)
          unfold eligK
          simp [List.mem_cons, hne1, hne2]
        have hlen : (t :: acc).length ≤ K := by
          simp only [List.length_cons]
          omega
        rw [hstep, ih (t :: acc) _ _ hlen h1.2 h2.2, hfe]
        simp only [List.filter_cons, helig, if_true, List.length_cons]
        omega

theorem kmgSorted_perm (excl : List (Str × List Str)) (tbl : List (Str × GenreRule))
    (stream : Nat → ℚ) (index : List (Str × List Track)) (genre : Str) (ctr : Nat) :
    List.Perm (kmgSorted excl tbl stream index genre ctr) (kmgUnique excl tbl index genre) := by
  unfold kmgSorted
  have h1 := List.perm_insertionSort (fun a b : ℚ × Track => b.1 ≤ a.1)
    ((kmgUnique excl tbl index genre).enum.map
      (fun p => (proto_score tbl genre p.2 (stream (ctr + p.1)), p.2)))
  have h2 := h1.map Prod.snd
  have h3 : ((kmgUnique excl tbl index genre).enum.map
      (fun p => (proto_score tbl genre p.2 (stream (ctr + p.1)), p.2))).map Prod.snd
      = kmgUnique excl tbl index genre := by
    rw [List.map_map]
    exact List.enum_map_snd _
  rw [h3] at h2
  exact h2

theorem kmgProcessGenre_spec (excl : List (Str × List Str)) (tbl : List (Str × GenreRule))
    (stream : Nat → ℚ) (index : List (Str × List Track)) (st : KSt) (genre : Str) :
    ∃ res, (kmgProcessGenre excl tbl stream index st genre).results
        = st.results ++ [(genre, res)] ∧
      res.length ≤ seeds_per_genre ∧
      (seeds_per_genre ≤ ((kmgUnique excl tbl index genre).filter
          (eligK st.gids st.garts)).length →
        res.length = seeds_per_genre) := by
  unfold kmgProcessGenre
  by_cases hc : kmgCandidates excl tbl index genre = []
  · rw [if_pos hc]
    refine ⟨[], rfl, by simp [seeds_per_genre], ?_⟩
    intro hge
    have : kmgUnique excl tbl index genre = [] := by
      unfold kmgUnique
      rw [hc]
      rfl
    rw [this] at hge
    simp [seeds_per_genre] at hge
  · rw [if_neg hc]
    by_cases hu : kmgUnique excl tbl index genre = []
    · rw [if_pos hu]
      refine ⟨[], rfl, by simp [seeds_per_genre], ?_⟩
      intro hge
      rw [hu] at hge
      simp [seeds_per_genre] at hge
    · rw [if_neg hu]
      refine ⟨(kmgPicked excl tbl stream index st genre).1, rfl, ?_, ?_⟩
      · exact kmgTopK_le seeds_per_genre _ [] st.gids st.garts (by simp)
      · intro hge
        have hperm := kmgSorted_perm excl tbl stream index genre st.ctr
        have hprops := kmgDedup_props (kmgCandidates excl tbl index genre) [] []
        have hnd1 : ((kmgSorted excl tbl stream index genre st.ctr).map tidA).Nodup :=
          ((hperm.map tidA).nodup_iff).mpr hprops.1
        have hnd2 : ((kmgSorted excl tbl stream index genre st.ctr).map artA).Nodup :=
          ((hperm.map artA).nodup_iff).mpr hprops.2.1
        have hflen : ((kmgSorted excl tbl stream index genre st.ctr).filter
            (eligK st.gids st.garts)).length
            = ((kmgUnique excl tbl index genre).filter (eligK st.gids st.garts)).length :=
          (hperm.filter _).length_eq
        have hlen := kmgTopK_length seeds_per_genre
          (kmgSorted excl tbl stream index genre st.ctr) [] st.gids st.garts
          (by simp) hnd1 hnd2
        unfold kmgPicked
        rw [hlen, hflen]
        omega

/-- **C4**: every genre's selected seed list has length at most
`CONFIG['seeds_per_genre']`; and whenever the locally de-duplicated pool
still eligible against the global seen-sets has at least that many
elements, the seed list has exactly that length.  The second conjunct
bounds every entry of a completed run's results map. -/
theorem c4_seed_count (excl : List (Str × List Str)) (tbl : List (Str × GenreRule))
    (denyUris : List Str) (stream : Nat → ℚ) (index : List (Str × List Track))
    (st : KSt) (genre : Str) (tracks : List Track) (genres : List Str) :
    (∃ res, (kmgProcessGenre excl tbl stream index st genre).results
        = st.results ++ [(genre, res)] ∧
      res.length ≤ seeds_per_genre ∧
      (seeds_per_genre ≤ ((kmgUnique excl tbl index genre).filter
          (eligK st.gids st.garts)).length →
        res.length = seeds_per_genre)) ∧
    (∀ p ∈ (kmgRun excl tbl denyUris stream tracks genres).results,
      p.2.length ≤ seeds_per_genre) := by
  constructor
  · exact kmgProcessGenre_spec excl tbl stream index st genre
  · unfold kmgRun
    have main : ∀ (gs : List Str) (st0 : KSt),
        (∀ p ∈ st0.results, p.2.length ≤ seeds_per_genre) →
        ∀ p ∈ (gs.foldl (kmgProcessGenre excl tbl stream
          (tracksByGenre denyUris (cleaned_tracks tracks))) st0).results,
          p.2.length ≤ seeds_per_genre := by
      intro gs
      induction gs with
      | nil => intro st0 h p hp; exact h p hp
      | cons g gr ih =>
        intro st0 h p hp
        rw [List.foldl_cons] at hp
        refine ih _ ?_ p hp
        obtain ⟨res, hres, hle, _⟩ := kmgProcessGenre_spec excl tbl stream
          (tracksByGenre denyUris (cleaned_tracks tracks)) st0 g
        intro q hq
        rw [hres] at hq
        rcases List.mem_append.mp hq with hq | hq
        · exact h q hq
        · rcases List.mem_singleton.mp hq with rfl
          exact hle
    intro p hp
    exact main genres {} (by intro p hp; cases hp) p hp

/-- **C4 witness**: the per-step clause at a concrete index holding six
distinct punk candidates and empty global sets: exactly
`seeds_per_genre = 5` seeds are selected. -/
theorem c4_seed_count_witness :
    ∃ res, (kmgProcessGenre [] [] (fun _ => 0) c4Index {} "punk".toList).results
        = ([] : List (Str × List Track)) ++ [("punk".toList, res)] ∧
      res.length = seeds_per_genre := by
  obtain ⟨res, h1, _, h3⟩ := (c4_seed_count [] [] [] (fun _ => 0) c4Index {}
    "punk".toList [] []).1
  exact ⟨res, h1, h3 (by with_unfolding_all decide)⟩


/-! ### Selection-loop lemmas for `v2.py` -/

theorem alookup_mem_pair {β : Type} :
    ∀ (l : List (Str × β)) (k : Str) (v : β), alookup l k = some v → (k, v) ∈ l := by
  intro l
  induction l with
  | nil => intro k v h; cases h
  | cons p r ih =>
    obtain ⟨a, b⟩ := p
    intro k v h
    by_cases hk : k = a
    · rw [alookup_cons, if_pos hk] at h
      cases h
      subst hk
      exact List.mem_cons_self _ _
    · rw [alookup_cons, if_neg hk] at h
      exact List.mem_cons_of_mem _ (ih k v h)

theorem relax_fst (tbl : List (Str × GenreRule)) (genre : Str) (c : List Track) :
    (V2.relax_rules_if_sparse tbl genre c).1 = c := by
  unfold V2.relax_rules_if_sparse
  by_cases h : 4 ≤ c.length
  · rw [if_pos h]
  · rw [if_neg h]
    cases halo : alookup tbl genre with
    | none => simp [halo]
    | some r => simp [halo]

theorem gather_subset (excl : List (Str × List Str)) (genre parent : Str)
    (famIds : List Str) :
    ∀ (l : List Track) (tbl : List (Str × GenreRule)) (cands : List Track),
    ∀ t ∈ (V2.gather excl genre parent famIds l tbl cands).1, t ∈ cands ∨ t ∈ l := by
  intro l
  induction l with
  | nil =>
    intro tbl cands t ht
    exact Or.inl (by simpa [V2.gather] using ht)
  | cons u r ih =>
    intro tbl cands t ht
    by_cases h1 : ¬ genre_match excl genre (norm_tags (tagsOf u))
    · rw [show V2.gather excl genre parent famIds (u :: r) tbl cands
          = V2.gather excl genre parent famIds r tbl cands from by
        simp [V2.gather, h1]] at ht
      rcases ih tbl cands t ht with h | h
      · exact Or.inl h
      · exact Or.inr (List.mem_cons_of_mem _ h)
    · by_cases h2 : ¬ V2.passes_rules tbl genre u
      · rw [show V2.gather excl genre parent famIds (u :: r) tbl cands
            = V2.gather excl genre parent famIds r tbl cands from by
          simp [V2.gather, h1, h2]] at ht
        rcases ih tbl cands t ht with h | h
        · exact Or.inl h
        · exact Or.inr (List.mem_cons_of_mem _ h)
      · by_cases h3 : V2.famHas parent famIds u = true
        · rw [show V2.gather excl genre parent famIds (u :: r) tbl cands
              = V2.gather excl genre parent famIds r tbl cands from by
            simp [V2.gather, h1, h2, h3]] at ht
          rcases ih tbl cands t ht with h | h
          · exact Or.inl h
          · exact Or.inr (List.mem_cons_of_mem _ h)
        · rw [show V2.gather excl genre parent famIds (u :: r) tbl cands
              = V2.gather excl genre parent famIds r
                  (V2.relax_rules_if_sparse tbl genre (cands ++ [u])).2
                  (V2.relax_rules_if_sparse tbl genre (cands ++ [u])).1 from by
            simp [V2.gather, h1, h2, h3]] at ht
          rcases ih _ _ t ht with h | h
          · rw [relax_fst] at h
            rcases List.mem_append.mp h with h | h
            · exact Or.inl h
            · rcases List.mem_singleton.mp h with rfl
              exact Or.inr (List.mem_cons_self _ _)
          · exact Or.inr (List.mem_cons_of_mem _ h)

theorem v2Dedup_mem (flag : Bool) (gIds gArts : List Str) :
    ∀ (l : List Track) (sids sarts : List Str),
    ∀ t ∈ V2.v2Dedup flag gIds gArts l sids sarts,
      t ∈ l ∧ (flag = true → primaryArtist t ∉ gArts) ∧ primaryArtist t ≠ [] := by
  intro l
  induction l with
  | nil => intro sids sarts t ht; cases ht
  | cons u r ih =>
    intro sids sarts t ht
    by_cases hb : V2.v2Bad u = true
    · rw [show V2.v2Dedup flag gIds gArts (u :: r) sids sarts
          = V2.v2Dedup flag gIds gArts r sids sarts from by simp [V2.v2Dedup, hb]] at ht
      obtain ⟨m1, m2, m3⟩ := ih sids sarts t ht
      exact ⟨List.mem_cons_of_mem _ m1, m2, m3⟩
    · have hb' : V2.v2Bad u = false := by simpa using hb
      by_cases hg : V2.v2SeenG flag gIds gArts u = true
      · rw [show V2.v2Dedup flag gIds gArts (u :: r) sids sarts
            = V2.v2Dedup flag gIds gArts r sids sarts from by simp [V2.v2Dedup, hb', hg]] at ht
        obtain ⟨m1, m2, m3⟩ := ih sids sarts t ht
        exact ⟨List.mem_cons_of_mem _ m1, m2, m3⟩
      · have hg' : V2.v2SeenG flag gIds gArts u = false := by simpa using hg
        by_cases hl : V2.v2SeenL sids sarts u = true
        · rw [show V2.v2Dedup flag gIds gArts (u :: r) sids sarts
              = V2.v2Dedup flag gIds gArts r sids sarts from by
            simp [V2.v2Dedup, hb', hg', hl]] at ht
          obtain ⟨m1, m2, m3⟩ := ih sids sarts t ht
          exact ⟨List.mem_cons_of_mem _ m1, m2, m3⟩
        · have hl' : V2.v2SeenL sids sarts u = false := by simpa using hl
          rw [show V2.v2Dedup flag gIds gArts (u :: r) sids sarts
              = u :: V2.v2Dedup flag gIds gArts r
                  ((pyOrS u.id u.uri).getD [] :: sids) (primaryArtist u :: sarts) from by
            simp [V2.v2Dedup, hb', hg', hl']] at ht
          rcases List.mem_cons.mp ht with rfl | ht'
          · refine ⟨List.mem_cons_self _ _, ?_, ?_⟩
            · intro hf
              unfold V2.v2SeenG at hg'
              rw [hf] at hg'
              rw [Bool.true_and] at hg'
              rcases Bool.or_eq_false_iff.mp hg' with ⟨_, h2⟩
              simpa using h2
            · unfold V2.v2Bad at hb'
              rcases Bool.or_eq_false_iff.mp hb' with ⟨_, h2⟩
              simpa using h2
          · obtain ⟨m1, m2, m3⟩ := ih _ _ t ht'
            exact ⟨List.mem_cons_of_mem _ m1, m2, m3⟩

theorem v2TopK_props (flag : Bool) (parent : Str) :
    ∀ (l acc : List Track) (famA famI gi ga : List Str),
      (∀ t ∈ (V2.v2TopK flag parent l acc famA famI gi ga).1, t ∈ acc ∨ t ∈ l) ∧
      (∀ a ∈ ga, a ∈ (V2.v2TopK flag parent l acc famA famI gi ga).2.2.2.2) ∧
      (flag = true → (∀ t ∈ acc, primaryArtist t ∈ ga) →
        ∀ t ∈ (V2.v2TopK flag parent l acc famA famI gi ga).1,
          primaryArtist t ∈ (V2.v2TopK flag parent l acc famA famI gi ga).2.2.2.2) := by
  intro l
  induction l with
  | nil =>
    intro acc famA famI gi ga
    refine ⟨?_, ?_, ?_⟩
    · intro t ht
      exact Or.inl (by simpa [V2.v2TopK] using ht)
    · intro a ha
      simpa [V2.v2TopK] using ha
    · intro _ hacc t ht
      have ht' : t ∈ acc := by simpa [V2.v2TopK] using ht
      simpa [V2.v2TopK] using hacc t ht'
  | cons u r ih =>
    intro acc famA famI gi ga
    by_cases hK : 4 ≤ acc.length
    · have hstep : V2.v2TopK flag parent (u :: r) acc famA famI gi ga
          = (acc.reverse, famA, famI, gi, ga) := by
        simp [V2.v2TopK, hK]
      rw [hstep]
      refine ⟨?_, ?_, ?_⟩
      · intro t ht
        exact Or.inl (by simpa using ht)
      · intro a ha
        simpa using ha
      · intro _ hacc t ht
        exact hacc t (by simpa using ht)
    · by_cases hskip : V2.v2FamSkip parent famA u = true
      · have hstep : V2.v2TopK flag parent (u :: r) acc famA famI gi ga
            = V2.v2TopK flag parent r acc famA famI gi ga := by
          simp [V2.v2TopK, hK, hskip]
        rw [hstep]
        obtain ⟨p1, p2, p3⟩ := ih acc famA famI gi ga
        refine ⟨?_, p2, ?_⟩
        · intro t ht
          rcases p1 t ht with h | h
          · exact Or.inl h
          · exact Or.inr (List.mem_cons_of_mem _ h)
        · exact p3
      · have hskip' : V2.v2FamSkip parent famA u = false := by simpa using hskip
        have hstep : V2.v2TopK flag parent (u :: r) acc famA famI gi ga
            = V2.v2TopK flag parent r (u :: acc)
                (if parent ≠ [] then primaryArtist u :: famA else famA)
                (if parent ≠ [] && truthyS (tidA u) then (tidA u).getD [] :: famI else famI)
                (if flag && truthyS (tidA u) then (tidA u).getD [] :: gi else gi)
                (if flag then primaryArtist u :: ga else ga) := by
          simp [V2.v2TopK, hK, hskip']
        rw [hstep]
        obtain ⟨p1, p2, p3⟩ :=
          ih (u :: acc) (if parent ≠ [] then primaryArtist u :: famA else famA)
            (if parent ≠ [] && truthyS (tidA u) then (tidA u).getD [] :: famI else famI)
            (if flag && truthyS (tidA u) then (tidA u).getD [] :: gi else gi)
            (if flag then primaryArtist u :: ga else ga)
        have hga : ∀ a ∈ ga, a ∈ (if flag then primaryArtist u :: ga else ga) := by
          intro a ha
          by_cases hf : flag = true
          · simp [hf]
            exact Or.inr ha
          · have : flag = false := by simpa using hf
            simpa [this] using ha
        refine ⟨?_, ?_, ?_⟩
        · intro t ht
          rcases p1 t ht with h | h
          · rcases List.mem_cons.mp h with rfl | h'
            · exact Or.inr (List.mem_cons_self _ _)
            · exact Or.inl h'
          · exact Or.inr (List.mem_cons_of_mem _ h)
        · intro a ha
          exact p2 a (hga a ha)
        · intro hf hacc t ht
          refine p3 hf ?_ t ht
          intro t' ht'
          rcases List.mem_cons.mp ht' with rfl | ht''
          · simp [hf]
          · exact hga _ (hacc t' ht'')

theorem v2Sorted_perm (flag : Bool) (excl : List (Str × List Str)) (g2p : List (Str × Str))
    (stream : Nat → ℚ) (pools : List (Str × List Track)) (st : V2.St) (genre : Str) :
    List.Perm (V2.sortedOf flag excl g2p stream pools st genre)
      (V2.uniqueOf flag excl g2p pools st genre) := by
  unfold V2.sortedOf
  have h1 := List.perm_insertionSort (fun a b : ℚ × Track => b.1 ≤ a.1)
    ((V2.uniqueOf flag excl g2p pools st genre).enum.map
      (fun p => (V2.proto_score genre p.2 (stream (st.ctr + p.1)), p.2)))
  have h2 := h1.map Prod.snd
  have h3 : ((V2.uniqueOf flag excl g2p pools st genre).enum.map
      (fun p => (V2.proto_score genre p.2 (stream (st.ctr + p.1)), p.2))).map Prod.snd
      = V2.uniqueOf flag excl g2p pools st genre := by
    rw [List.map_map]
    exact List.enum_map_snd _
  rw [h3] at h2
  exact h2

theorem v2Step_spec (flag : Bool) (excl : List (Str × List Str)) (g2p : List (Str × Str))
    (stream : Nat → ℚ) (pools : List (Str × List Track)) (st : V2.St) (genre : Str) :
    ∃ res, (V2.processGenre flag excl g2p stream pools st genre).results
        = st.results ++ [(genre, res)] ∧
      (∀ a ∈ st.usedArts,
        a ∈ (V2.processGenre flag excl g2p stream pools st genre).usedArts) ∧
      (flag = true → ∀ t ∈ res,
        primaryArtist t ∉ st.usedArts ∧ primaryArtist t ≠ [] ∧
        primaryArtist t ∈ (V2.processGenre flag excl g2p stream pools st genre).usedArts ∧
        t ∈ V2.poolOf pools genre) := by
  unfold V2.processGenre
  by_cases hc : (V2.gatherOf excl g2p pools st genre).1 = []
  · rw [if_pos hc]
    refine ⟨[], rfl, fun a ha => ha, ?_⟩
    intro _ t ht
    cases ht
  · rw [if_neg hc]
    by_cases hu : V2.uniqueOf flag excl g2p pools st genre = []
    · rw [if_pos hu]
      refine ⟨[], rfl, fun a ha => ha, ?_⟩
      intro _ t ht
      cases ht
    · rw [if_neg hu]
      obtain ⟨p1, p2, p3⟩ := v2TopK_props flag (V2.parentOf g2p genre)
        (V2.sortedOf flag excl g2p stream pools st genre) []
        (V2.famArtsOf st g2p genre) (V2.famIdsOf st g2p genre) st.usedIds st.usedArts
      refine ⟨(V2.pickedOf flag excl g2p stream pools st genre).1, rfl, ?_, ?_⟩
      · intro a ha
        exact p2 a ha
      · intro hf t ht
        have htin : t ∈ V2.sortedOf flag excl g2p stream pools st genre := by
          rcases p1 t ht with h | h
          · cases h
          · exact h
        have htu : t ∈ V2.uniqueOf flag excl g2p pools st genre :=
          ((v2Sorted_perm flag excl g2p stream pools st genre).mem_iff).mp htin
        have hd := v2Dedup_mem flag st.usedIds st.usedArts
          (V2.gatherOf excl g2p pools st genre).1 [] [] t htu
        obtain ⟨htc, hna, hne⟩ := hd
        have hpool : t ∈ V2.poolOf pools genre := by
          rcases gather_subset excl genre (V2.parentOf g2p genre)
            (V2.famIdsOf st g2p genre) (V2.poolOf pools genre) st.tbl [] t htc with h | h
          · cases h
          · exact h
        exact ⟨hna hf, hne, p3 hf (by intro t' ht'; cases ht') t ht, hpool⟩

theorem v2Run_inv (excl : List (Str × List Str)) (g2p : List (Str × Str))
    (stream : Nat → ℚ) (pools : List (Str × List Track)) :
    ∀ (gs : List Str) (st : V2.St),
      (∀ p ∈ st.results, ∀ t ∈ p.2,
        primaryArtist t ∈ st.usedArts ∧ t ∈ V2.poolOf pools p.1) →
      List.Pairwise (fun p q : Str × List Track => ∀ t1 ∈ p.2, ∀ t2 ∈ q.2,
        primaryArtist t1 ≠ primaryArtist t2) st.results →
      (∀ p ∈ (gs.foldl (V2.processGenre true excl g2p stream pools) st).results,
        ∀ t ∈ p.2,
          primaryArtist t ∈ (gs.foldl (V2.processGenre true excl g2p stream pools) st).usedArts ∧
          t ∈ V2.poolOf pools p.1) ∧
      List.Pairwise (fun p q : Str × List Track => ∀ t1 ∈ p.2, ∀ t2 ∈ q.2,
        primaryArtist t1 ≠ primaryArtist t2)
        (gs.foldl (V2.processGenre true excl g2p stream pools) st).results := by
  intro gs
  induction gs with
  | nil =>
    intro st h1 h2
    exact ⟨h1, h2⟩
  | cons g gr ih =>
    intro st h1 h2
    rw [List.foldl_cons]
    obtain ⟨res, hres, hmono, hnew⟩ := v2Step_spec true excl g2p stream pools st g
    apply ih
    · intro p hp t ht
      rw [hres] at hp
      rcases List.mem_append.mp hp with hp' | hp'
      · obtain ⟨ha, hb⟩ := h1 p hp' t ht
        exact ⟨hmono _ ha, hb⟩
      · rcases List.mem_singleton.mp hp' with rfl
        obtain ⟨_, _, hin, hpool⟩ := hnew rfl t ht
        exact ⟨hin, hpool⟩
    · rw [hres]
      rw [List.pairwise_append]
      refine ⟨h2, List.pairwise_singleton _ _, ?_⟩
      intro p hp q hq t1 ht1 t2 ht2 heq
      rcases List.mem_singleton.mp hq with rfl
      obtain ⟨ha1, _⟩ := h1 p hp t1 ht1
      obtain ⟨hna, _, _, _⟩ := hnew rfl t2 ht2
      exact hna (heq ▸ ha1)

/-- **C1**: in a completed `v2.py` batch run with global uniqueness
enabled, two distinct genres of the results map share no track identifier
(given that, across the candidate pools, equal identifiers imply the same
primary artist — identifiers are unique per record), and two distinct
genres under the same parent share no primary artist. -/
theorem c1_uniqueness (excl : List (Str × List Str)) (g2p : List (Str × Str))
    (stream : Nat → ℚ) (pools : List (Str × List Track))
    (tbl0 : List (Str × GenreRule)) (genres : List Str)
    (hid : ∀ e1 ∈ pools, ∀ e2 ∈ pools, ∀ t1 ∈ e1.2, ∀ t2 ∈ e2.2,
      tidA t1 = tidA t2 → primaryArtist t1 = primaryArtist t2) :
    ∀ p1 ∈ (V2.run true excl g2p stream pools tbl0 genres).results,
    ∀ p2 ∈ (V2.run true excl g2p stream pools tbl0 genres).results,
      p1.1 ≠ p2.1 →
      (∀ t1 ∈ p1.2, ∀ t2 ∈ p2.2, tidA t1 ≠ tidA t2) ∧
      (V2.parentOf g2p p1.1 = V2.parentOf g2p p2.1 →
        ∀ t1 ∈ p1.2, ∀ t2 ∈ p2.2, primaryArtist t1 ≠ primaryArtist t2) := by
  have hinv := v2Run_inv excl g2p stream pools genres { tbl := tbl0 }
    (by intro p hp; cases hp) List.Pairwise.nil
  have hsym : Symmetric (fun p q : Str × List Track => ∀ t1 ∈ p.2, ∀ t2 ∈ q.2,
      primaryArtist t1 ≠ primaryArtist t2) := by
    intro p q h t1 ht1 t2 ht2 heq
    exact h t2 ht2 t1 ht1 heq.symm
  intro p1 hp1 p2 hp2 hne
  have hne' : p1 ≠ p2 := by
    intro h
    exact hne (congrArg Prod.fst h)
  have hdisj := List.Pairwise.forall hsym hinv.2 hp1 hp2 hne'
  constructor
  · intro t1 ht1 t2 ht2 htid
    have h1 := (hinv.1 p1 hp1 t1 ht1).2
    have h2 := (hinv.1 p2 hp2 t2 ht2).2
    unfold V2.poolOf at h1 h2
    cases ha1 : alookup pools (pyLower p1.1) with
    | none =>
      rw [ha1] at h1
      cases h1
    | some l1 =>
      rw [ha1] at h1
      cases ha2 : alookup pools (pyLower p2.1) with
      | none =>
        rw [ha2] at h2
        cases h2
      | some l2 =>
        rw [ha2] at h2
        have he1 := alookup_mem_pair pools _ _ ha1
        have he2 := alookup_mem_pair pools _ _ ha2
        have heq := hid _ he1 _ he2 t1 (by simpa using h1) t2 (by simpa using h2) htid
        exact hdisj t1 ht1 t2 ht2 heq
  · intro _ t1 ht1 t2 ht2
    exact hdisj t1 ht1 t2 ht2

/-- **C1 witness**: a two-genre run over concrete pools in which the
shared candidate is claimed by the first genre; the theorem yields both
disjointness clauses for the two selected tracks. -/
theorem c1_uniqueness_witness :
    tidA c1TA ≠ tidA c1TB ∧ primaryArtist c1TA ≠ primaryArtist c1TB := by
  have h := c1_uniqueness [] [] (fun _ => 0) c1Pools []
    ["alpha".toList, "beta".toList] (by decide)
    ("alpha".toList, [c1TA]) (by with_unfolding_all decide)
    ("beta".toList, [c1TB]) (by with_unfolding_all decide)
    (by decide)
  exact ⟨h.1 c1TA (List.mem_singleton.mpr rfl) c1TB (List.mem_singleton.mpr rfl),
    h.2 rfl c1TA (List.mem_singleton.mpr rfl) c1TB (List.mem_singleton.mpr rfl)⟩

end HTG
